import Mathlib

/-!
# EZ-Flash rumble cartridge hardware

A shallow embedding of `src/gba/cart/chis.c` and of
`include/mgba/internal/gba/cart/chis.h`: the write-sequence detector
`ChisCartridgeHardwareWrite32`, the commit step `_commitRumble`, the actuator
wrapper `_setRumble` and the body of the delayed turn-off thread `_rumbleOff`.

Conventions of the embedding.

* C integers are `Nat` (unsigned) or `Int` (signed); truncation is written
  with an explicit `%`.
* The two clocks the code reads are inputs of the functions that read them:
  `ts` is the value returned by `_get_current_timestamp_milliseconds()` and
  `currentTime` the value returned by `mTimingCurrentTime(&hw->gpio->p->timing)`.
* A function returns `none` where the C code dereferences a null `hw->gpio`.
* Two ghost fields record what the code does: `calls` lists the invocations
  `rumble->setRumble(rumble, enable, elapsed)` in order, `commits` counts the
  calls of `_commitRumble`.
-/

namespace Chis

/-! ## Constants -/

/-- The macro `RUMBLE_DELAY_MS`. -/
abbrev RUMBLE_DELAY_MS : Nat := 200

/-- The enumerators of `enum EZRumbleStatus`, by their C values. -/
abbrev EZ_RUMBLE_NONE : Nat := 0
/-- Entered by 0xD200. -/
abbrev EZ_RUMBLE_START_CMD_1 : Nat := 1
/-- Entered by 0x1500. -/
abbrev EZ_RUMBLE_START_CMD_2 : Nat := 2
/-- Entered by 0xD200. -/
abbrev EZ_RUMBLE_START_CMD_3 : Nat := 3
/-- Entered by 0x1500. -/
abbrev EZ_RUMBLE_START_CMD_4 : Nat := 4
/-- Header comment: 0xF1 for ezode. -/
abbrev EZ_RUMBLE_DATA_5 : Nat := 5
/-- Header comment: 7 for ez3in1 rumble ON, 8 for ez3in1 rumble OFF. -/
abbrev EZ_RUMBLE_DATA_5_3IN1 : Nat := 6
/-- Header comment: 0x1500, end of ez3in1 rumble. -/
abbrev EZ_RUMBLE_END_CMD_6 : Nat := 7
/-- Header comment: 2 for ezode rumble ON. -/
abbrev EZ_RUMBLE_DATA_7 : Nat := 8

/-! ## Data model -/

/-- The part of `struct GBACartridgeHardware` that `chis.c` reaches through
`hw->gpio->p`: whether `p->rumble` is non-null, and `p->lastRumble`. -/
structure GBACartridgeHardware where
  /-- Is `p->rumble` a non-null `struct mRumble*`. -/
  rumble : Bool
  /-- The field `p->lastRumble` (int32_t). -/
  lastRumble : Int
deriving DecidableEq, Repr

/-- The record `struct ChisCartridgeHardware`, without its thread handle and
mutex, and with the two ghost fields `calls` and `commits`. -/
structure ChisCartridgeHardware where
  /-- The field `enum EZRumbleStatus rumbleStatus`, as its integer value. -/
  rumbleStatus : Nat
  /-- The motor flag `int rumble`: -1 unknown, 0 off, 1 on. -/
  rumble : Int
  /-- The latched intent `int rumbleWaitCommit`: -1 none, 0 delayed off, 1 on. -/
  rumbleWaitCommit : Int
  /-- The deadline `uint64_t lastOffTS`, 0 when none is set. -/
  lastOffTS : Nat
  /-- The flag `bool stopThread`. -/
  stopThread : Bool
  /-- The pointer `gpio`; `none` is the null pointer. -/
  gpio : Option GBACartridgeHardware
  /-- Ghost: the actuator invocations made so far, oldest first, each with its
  `enable` and `elapsed` arguments. -/
  calls : List (Bool × Int)
  /-- Ghost: how many times `_commitRumble` has been entered. -/
  commits : Nat
deriving DecidableEq, Repr

/-- Reduction of an integer to the range of `int32_t` (two's complement). -/
def wrapInt32 (x : Int) : Int := (x + 2 ^ 31) % 2 ^ 32 - 2 ^ 31

/-! ## Operations -/

/-- The function `_sleep_cross_platform` on the non-Windows branch: the
argument handed to `usleep`. The parameter is an `unsigned int`, so the
caller's value is reduced modulo 2^32 first, and so is the product. -/
def _sleep_cross_platform (milliseconds : Nat) : Nat :=
  ((milliseconds % 2 ^ 32) * 1000) % 2 ^ 32

/-- The function `_setRumble`. -/
def _setRumble (hw : ChisCartridgeHardware) (enable : Bool) (currentTime : Int) :
    Option ChisCartridgeHardware :=
  match hw.gpio with
  | none => none
  | some g =>
    if g.rumble = false then
      some hw
    else
      some { hw with
        calls := hw.calls ++ [(enable, wrapInt32 (currentTime - g.lastRumble))]
        gpio := some { g with lastRumble := currentTime } }

/-- One pass through the critical section of the loop of `_rumbleOff`, having
read the clock value `ts`. -/
def _rumbleOff_iteration (hw : ChisCartridgeHardware) (ts : Nat) (currentTime : Int) :
    Option ChisCartridgeHardware :=
  if hw.rumbleWaitCommit = 0 ∧ hw.rumble = 1 ∧ hw.lastOffTS ≠ 0 ∧ hw.lastOffTS < ts then
    (_setRumble hw false currentTime).map fun h => { h with rumble := 0, lastOffTS := 0 }
  else
    some hw

/-- The sleep requested at the end of a pass of the loop of `_rumbleOff`
(the argument of `usleep`), from the state the critical section left. -/
def _rumbleOff_sleep (hw : ChisCartridgeHardware) (ts : Nat) : Nat :=
  if hw.lastOffTS ≠ 0 ∧ hw.lastOffTS > ts ∧ hw.lastOffTS - ts > 10 then
    _sleep_cross_platform (hw.lastOffTS - ts)
  else
    _sleep_cross_platform 10

/-- The thread body `_rumbleOff`, run on a finite supply of clock readings:
the loop stops when `stopThread` is set or the readings are used up. The
result is the final state with the sleeps requested, oldest first. -/
def _rumbleOff (hw : ChisCartridgeHardware) :
    List (Nat × Int) → Option (ChisCartridgeHardware × List Nat)
  | [] => some (hw, [])
  | (ts, currentTime) :: rest =>
    if hw.stopThread then
      some (hw, [])
    else
      match _rumbleOff_iteration hw ts currentTime with
      | none => none
      | some h =>
        (_rumbleOff h rest).map fun r => (r.1, _rumbleOff_sleep h ts :: r.2)

/-- The function `ChisCartridgeHardwareInit`, on the memory `hw` of the record
and the pointer `gpio` it is given (non-null). The thread it creates is
modelled by `_rumbleOff`; the two `GBAHardwareGPIOWrite` calls write GPIO
registers that `chis.c` never reads. -/
def ChisCartridgeHardwareInit (hw : ChisCartridgeHardware) (gpio : GBACartridgeHardware) :
    ChisCartridgeHardware :=
  { hw with
    gpio := some gpio
    rumbleStatus := EZ_RUMBLE_NONE
    lastOffTS := 0
    rumbleWaitCommit := -1
    rumble := -1
    stopThread := false }

/-- The function `ChisCartridgeHardwareDeinit`. -/
def ChisCartridgeHardwareDeinit (hw : ChisCartridgeHardware) : ChisCartridgeHardware :=
  { hw with
    gpio := none
    rumbleStatus := EZ_RUMBLE_NONE
    rumbleWaitCommit := -1
    rumble := -1
    stopThread := true }

/-- The function `_commitRumble`; `ts` is the clock value its second branch
reads. -/
def _commitRumble (hw : ChisCartridgeHardware) (ts : Nat) (currentTime : Int) :
    Option ChisCartridgeHardware :=
  let hw := { hw with commits := hw.commits + 1 }
  if hw.rumbleWaitCommit = 1 then
    (_setRumble { hw with lastOffTS := 0 } true currentTime).map
      fun h => { h with rumble := 1 }
  else if hw.rumbleWaitCommit = 0 then
    (_setRumble hw true currentTime).map
      fun h => { h with lastOffTS := (ts + RUMBLE_DELAY_MS) % 2 ^ 64 }
  else
    some hw

/-- The function `ChisCartridgeHardwareWrite32`. The `switch` on
`hw->rumbleStatus` is the chain of tests on `hw.rumbleStatus`. -/
def ChisCartridgeHardwareWrite32 (hw : ChisCartridgeHardware) (address value : Nat)
    (ts : Nat) (currentTime : Int) : Option ChisCartridgeHardware :=
  let value := value % 0x10000
  let value16 := value % 0x10000
  let value8 := value % 0x100
  if hw.rumbleStatus = EZ_RUMBLE_NONE then
    if address = 0x09FE0000 ∧ value16 = 0xD200 then
      some { hw with rumbleStatus := EZ_RUMBLE_START_CMD_1 }
    else if address = 0x09E20000 ∧ value8 = 0x8 then
      some { hw with rumbleWaitCommit := 0, rumbleStatus := EZ_RUMBLE_DATA_5 }
    else if address = 0x08001000 ∧ value8 = 0 then
      (_commitRumble { hw with rumbleWaitCommit := 0 } ts currentTime).map
        fun h => { h with rumbleStatus := EZ_RUMBLE_NONE }
    else
      some { hw with rumbleStatus := EZ_RUMBLE_NONE }
  else if hw.rumbleStatus = EZ_RUMBLE_START_CMD_1 then
    if address = 0x08000000 ∧ value16 = 0x1500 then
      some { hw with rumbleStatus := EZ_RUMBLE_START_CMD_2 }
    else
      some { hw with rumbleStatus := EZ_RUMBLE_NONE }
  else if hw.rumbleStatus = EZ_RUMBLE_START_CMD_2 then
    if address = 0x08020000 ∧ value16 = 0xD200 then
      some { hw with rumbleStatus := EZ_RUMBLE_START_CMD_3 }
    else
      some { hw with rumbleStatus := EZ_RUMBLE_NONE }
  else if hw.rumbleStatus = EZ_RUMBLE_START_CMD_3 then
    if address = 0x08040000 ∧ value16 = 0x1500 then
      some { hw with rumbleStatus := EZ_RUMBLE_START_CMD_4 }
    else
      some { hw with rumbleStatus := EZ_RUMBLE_NONE }
  else if hw.rumbleStatus = EZ_RUMBLE_START_CMD_4 then
    if address = 0x09E20000 then
      if value8 = 0xF1 then
        some { hw with rumbleStatus := EZ_RUMBLE_DATA_5 }
      else if value8 = 7 then
        some { hw with rumbleWaitCommit := 1, rumbleStatus := EZ_RUMBLE_DATA_5 }
      else if value8 = 8 then
        some { hw with rumbleWaitCommit := 0, rumbleStatus := EZ_RUMBLE_DATA_5 }
      else
        some { hw with rumbleStatus := EZ_RUMBLE_NONE }
    else
      some { hw with rumbleStatus := EZ_RUMBLE_NONE }
  else if hw.rumbleStatus = EZ_RUMBLE_DATA_5 ∨ hw.rumbleStatus = EZ_RUMBLE_DATA_5_3IN1 then
    if address = 0x09FC0000 ∧ value16 = 0x1500 then
      if hw.rumbleStatus = EZ_RUMBLE_DATA_5_3IN1 then
        (_commitRumble hw ts currentTime).map
          fun h => { h with rumbleStatus := EZ_RUMBLE_NONE }
      else
        some { hw with rumbleStatus := EZ_RUMBLE_END_CMD_6 }
    else
      some { hw with rumbleStatus := EZ_RUMBLE_NONE }
  else if hw.rumbleStatus = EZ_RUMBLE_END_CMD_6 then
    if address = 0x08001000 then
      let hw1 :=
        if value8 = 2 then { hw with rumbleWaitCommit := 1 }
        else if value8 = 0 then { hw with rumbleWaitCommit := 0 }
        else { hw with rumbleWaitCommit := 0 }
      (_commitRumble hw1 ts currentTime).map
        fun h => { h with rumbleStatus := EZ_RUMBLE_NONE }
    else
      some { hw with rumbleStatus := EZ_RUMBLE_NONE }
  else
    some { hw with rumbleStatus := EZ_RUMBLE_NONE }

/-- The function `ChisCartridgeHardwareWrite16`: its parameter is a
`uint16_t`, so the value is reduced modulo 2^16 before it is passed on. -/
def ChisCartridgeHardwareWrite16 (hw : ChisCartridgeHardware) (address value : Nat)
    (ts : Nat) (currentTime : Int) : Option ChisCartridgeHardware :=
  ChisCartridgeHardwareWrite32 hw address (value % 2 ^ 16) ts currentTime

/-- The function `ChisCartridgeHardwareWrite8`: its parameter is a `uint8_t`,
so the value is reduced modulo 2^8 before it is passed on. -/
def ChisCartridgeHardwareWrite8 (hw : ChisCartridgeHardware) (address value : Nat)
    (ts : Nat) (currentTime : Int) : Option ChisCartridgeHardware :=
  ChisCartridgeHardwareWrite32 hw address (value % 2 ^ 8) ts currentTime

/-! ## Feeding sequences of writes -/

/-- One write delivered to `ChisCartridgeHardwareWrite32`, with the two clock
values that call would read. -/
structure BusWrite where
  address : Nat
  value : Nat
  ts : Nat
  currentTime : Int
deriving DecidableEq, Repr

/-- Deliver one write. -/
def deliver (hw : ChisCartridgeHardware) (w : BusWrite) : Option ChisCartridgeHardware :=
  ChisCartridgeHardwareWrite32 hw w.address w.value w.ts w.currentTime

/-- Deliver the writes of a list in order, stopping at a null dereference. -/
def deliverAll (hw : ChisCartridgeHardware) : List BusWrite → Option ChisCartridgeHardware
  | [] => some hw
  | w :: ws => (deliver hw w).bind fun h => deliverAll h ws

/-- The seven writes of the ezode command: the start value, three
confirmations, the payload 0xF1, the terminator, and a last write of `final`
to 0x08001000. The write number `i` reads the clock values `clock i`. -/
def ezodeSequence (final : Nat) (clock : Nat → Nat × Int) : List BusWrite :=
  [ ⟨0x09FE0000, 0xD200, (clock 0).1, (clock 0).2⟩,
    ⟨0x08000000, 0x1500, (clock 1).1, (clock 1).2⟩,
    ⟨0x08020000, 0xD200, (clock 2).1, (clock 2).2⟩,
    ⟨0x08040000, 0x1500, (clock 3).1, (clock 3).2⟩,
    ⟨0x09E20000, 0xF1, (clock 4).1, (clock 4).2⟩,
    ⟨0x09FC0000, 0x1500, (clock 5).1, (clock 5).2⟩,
    ⟨0x08001000, final, (clock 6).1, (clock 6).2⟩ ]

/-- The writes on which `ChisCartridgeHardwareWrite32` reaches a call of
`_commitRumble`: in the idle state a value with low byte 0 at 0x08001000, in
`EZ_RUMBLE_END_CMD_6` any write at 0x08001000, in `EZ_RUMBLE_DATA_5_3IN1` the
terminator 0x1500 at 0x09FC0000. -/
def completesSequence (hw : ChisCartridgeHardware) (address value : Nat) : Prop :=
  (hw.rumbleStatus = EZ_RUMBLE_NONE ∧ address = 0x08001000 ∧ value % 0x100 = 0) ∨
  (hw.rumbleStatus = EZ_RUMBLE_END_CMD_6 ∧ address = 0x08001000) ∨
  (hw.rumbleStatus = EZ_RUMBLE_DATA_5_3IN1 ∧ address = 0x09FC0000 ∧ value % 0x10000 = 0x1500)

instance (hw : ChisCartridgeHardware) (address value : Nat) :
    Decidable (completesSequence hw address value) := by
  unfold completesSequence
  infer_instance

/-- The three first-step triggers of the idle state as the branch conditions
of `ChisCartridgeHardwareWrite32` test them: 0xD200 in the low 16 bits at
0x09FE0000, the marker 0x08 in the low byte at 0x09E20000, a low byte 0 at
0x08001000. -/
def firstStepTrigger (address value : Nat) : Prop :=
  (address = 0x09FE0000 ∧ value % 0x10000 = 0xD200) ∨
  (address = 0x09E20000 ∧ value % 0x100 = 0x8) ∨
  (address = 0x08001000 ∧ value % 0x100 = 0)

instance (address value : Nat) : Decidable (firstStepTrigger address value) := by
  unfold firstStepTrigger
  infer_instance

/-- The three first-step triggers in the words of the specification, for a
write of `width` bits (8, 16 or 32): the third one asks that the value masked
to the write width be 0. -/
def statedFirstStepTrigger (width address value : Nat) : Prop :=
  (address = 0x09FE0000 ∧ value % 0x10000 = 0xD200) ∨
  (address = 0x09E20000 ∧ value % 0x100 = 0x8) ∨
  (address = 0x08001000 ∧ value % 2 ^ width = 0)

instance (width address value : Nat) :
    Decidable (statedFirstStepTrigger width address value) := by
  unfold statedFirstStepTrigger
  infer_instance

/-- The pair a step of the confirmation chain accepts, as the branch
conditions of `ChisCartridgeHardwareWrite32` test it in the states
`EZ_RUMBLE_START_CMD_1` to `EZ_RUMBLE_START_CMD_4` (in the last of them the
payload 0xF1, 7 or 8 in the low byte at 0x09E20000). -/
def confirmsStep (hw : ChisCartridgeHardware) (address value : Nat) : Prop :=
  (hw.rumbleStatus = EZ_RUMBLE_START_CMD_1 ∧ address = 0x08000000 ∧ value % 0x10000 = 0x1500) ∨
  (hw.rumbleStatus = EZ_RUMBLE_START_CMD_2 ∧ address = 0x08020000 ∧ value % 0x10000 = 0xD200) ∨
  (hw.rumbleStatus = EZ_RUMBLE_START_CMD_3 ∧ address = 0x08040000 ∧ value % 0x10000 = 0x1500) ∨
  (hw.rumbleStatus = EZ_RUMBLE_START_CMD_4 ∧ address = 0x09E20000 ∧
    (value % 0x100 = 0xF1 ∨ value % 0x100 = 7 ∨ value % 0x100 = 8))

instance (hw : ChisCartridgeHardware) (address value : Nat) :
    Decidable (confirmsStep hw address value) := by
  unfold confirmsStep
  infer_instance

/-- What the two execution contexts do to the shared record: the caller
delivers a write, or the thread of `_rumbleOff` runs one pass of its loop
having read the clock value `ts`. -/
inductive Event where
  | write (w : BusWrite)
  | tick (ts : Nat) (currentTime : Int)
deriving DecidableEq, Repr

/-- Run one event. -/
def step (hw : ChisCartridgeHardware) : Event → Option ChisCartridgeHardware
  | Event.write w => deliver hw w
  | Event.tick ts currentTime => _rumbleOff_iteration hw ts currentTime

/-- Run the events of a list in order, stopping at a null dereference. -/
def run (hw : ChisCartridgeHardware) : List Event → Option ChisCartridgeHardware
  | [] => some hw
  | e :: es => (step hw e).bind fun h => run h es

/-! ## Sample inputs -/

/-- A `gpio` record with an actuator attached and `lastRumble = 0`. -/
def gpioWithActuator : GBACartridgeHardware := ⟨true, 0⟩

/-- The state `ChisCartridgeHardwareInit` sets up on zeroed memory, with an
actuator attached. -/
def freshHardware : ChisCartridgeHardware :=
  ChisCartridgeHardwareInit ⟨0, 0, 0, 0, false, none, [], 0⟩ gpioWithActuator

/-- A clock that reads 1000 ms and the timing value 50 at every write. -/
def steadyClock : Nat → Nat × Int := fun _ => (1000, 50)

/-- A state with the motor on, intent "immediate on" latched and a delayed
turn-off pending at 1200 ms. -/
def pendingOffHardware : ChisCartridgeHardware :=
  ⟨EZ_RUMBLE_NONE, 1, 1, 1200, false, some gpioWithActuator, [], 0⟩

/-- A state in the middle of the confirmation chain, with the motor on. -/
def midChainHardware : ChisCartridgeHardware :=
  ⟨EZ_RUMBLE_START_CMD_2, 1, -1, 0, false, some gpioWithActuator, [], 0⟩

/-- A state waiting for the last write of the ezode sequence, motor off. -/
def endHardware : ChisCartridgeHardware :=
  ⟨EZ_RUMBLE_END_CMD_6, 0, -1, 0, false, some gpioWithActuator, [], 0⟩

/-- A state that has received the four confirmations and waits for the
payload, motor off. -/
def payloadHardware : ChisCartridgeHardware :=
  ⟨EZ_RUMBLE_START_CMD_4, 0, -1, 0, false, some gpioWithActuator, [], 0⟩

/-- A state with the motor on and a delayed turn-off due at 1200 ms. -/
def dueHardware : ChisCartridgeHardware :=
  ⟨EZ_RUMBLE_NONE, 1, 0, 1200, false, some gpioWithActuator, [(true, 50)], 1⟩

/-- The state `ChisCartridgeHardwareWrite32` leaves in `rumbleStatus`, read
off its branches: the next step of the sequence when the write is the one the
current state accepts, idle otherwise (also after a commit). -/
def nextStatus (status address value : Nat) : Nat :=
  if status = EZ_RUMBLE_NONE then
    if address = 0x09FE0000 ∧ value % 0x10000 = 0xD200 then EZ_RUMBLE_START_CMD_1
    else if address = 0x09E20000 ∧ value % 0x100 = 0x8 then EZ_RUMBLE_DATA_5
    else EZ_RUMBLE_NONE
  else if status = EZ_RUMBLE_START_CMD_1 then
    if address = 0x08000000 ∧ value % 0x10000 = 0x1500 then EZ_RUMBLE_START_CMD_2
    else EZ_RUMBLE_NONE
  else if status = EZ_RUMBLE_START_CMD_2 then
    if address = 0x08020000 ∧ value % 0x10000 = 0xD200 then EZ_RUMBLE_START_CMD_3
    else EZ_RUMBLE_NONE
  else if status = EZ_RUMBLE_START_CMD_3 then
    if address = 0x08040000 ∧ value % 0x10000 = 0x1500 then EZ_RUMBLE_START_CMD_4
    else EZ_RUMBLE_NONE
  else if status = EZ_RUMBLE_START_CMD_4 then
    if address = 0x09E20000 ∧
        (value % 0x100 = 0xF1 ∨ value % 0x100 = 7 ∨ value % 0x100 = 8) then EZ_RUMBLE_DATA_5
    else EZ_RUMBLE_NONE
  else if status = EZ_RUMBLE_DATA_5 then
    if address = 0x09FC0000 ∧ value % 0x10000 = 0x1500 then EZ_RUMBLE_END_CMD_6
    else EZ_RUMBLE_NONE
  else EZ_RUMBLE_NONE

/-- The value `ChisCartridgeHardwareWrite32` leaves in `rumbleWaitCommit`
before any call of `_commitRumble`, read off its branches: the writes that
assign the field are the marker and the zero byte of the idle state, the
payloads 7 and 8, and every write to 0x08001000 in `EZ_RUMBLE_END_CMD_6`. -/
def nextIntent (status : Nat) (intent : Int) (address value : Nat) : Int :=
  if status = EZ_RUMBLE_NONE ∧ address = 0x09E20000 ∧ value % 0x100 = 0x8 then 0
  else if status = EZ_RUMBLE_NONE ∧ address = 0x08001000 ∧ value % 0x100 = 0 then 0
  else if status = EZ_RUMBLE_START_CMD_4 ∧ address = 0x09E20000 ∧ value % 0x100 = 7 then 1
  else if status = EZ_RUMBLE_START_CMD_4 ∧ address = 0x09E20000 ∧ value % 0x100 = 8 then 0
  else if status = EZ_RUMBLE_END_CMD_6 ∧ address = 0x08001000 then
    if value % 0x100 = 2 then 1 else 0
  else intent

/-- A state with the motor on and a delayed turn-off pending at 1200 ms, in
which a new sequence has received its four confirmations. -/
def latchHardware : ChisCartridgeHardware :=
  ⟨EZ_RUMBLE_START_CMD_4, 1, 0, 1200, false, some gpioWithActuator, [(true, 50)], 1⟩

/-- What a scheduler pass lets the outside see: the actuator calls, the motor
flag and the deadline. -/
def observed (hw : ChisCartridgeHardware) : List (Bool × Int) × Int × Nat :=
  (hw.calls, hw.rumble, hw.lastOffTS)

/-- A state whose deadline lies 4294968 ms after the clock value 1000. -/
def farDeadlineHardware : ChisCartridgeHardware :=
  ⟨EZ_RUMBLE_NONE, 1, 1, 4295968, false, some gpioWithActuator, [], 0⟩

/-- The timing value `mTimingCurrentTime` returns during an event. -/
def eventTime : Event → Int
  | Event.write w => w.currentTime
  | Event.tick _ currentTime => currentTime

/-- The `elapsed` arguments of successive actuator calls made at the timing
values `times`, when the call before them was made at `last`: each is the
32-bit difference to the timing value of the call before. -/
def elapsedChain (last : Int) : List Int → List Int
  | [] => []
  | t :: rest => wrapInt32 (t - last) :: elapsedChain t rest

/-! ## Accesses to the shared fields, in program order -/

/-- The three fields of the record used by both the caller of the write
functions and the thread of `_rumbleOff`. -/
inductive SharedField where
  | rumble
  | rumbleWaitCommit
  | lastOffTS
deriving DecidableEq, Repr

/-- What a function does to `hw->gpioMutex` and to the shared fields:
`MutexLock`, `MutexUnlock`, a read of a field, a write of a field. -/
inductive Access where
  | lock
  | unlock
  | read (f : SharedField)
  | write (f : SharedField)
deriving DecidableEq, Repr

/-- The accesses of `_commitRumble` in program order: the test of
`rumbleWaitCommit`, then in the first branch the lock, the writes of
`lastOffTS` and `rumble` and the unlock; otherwise the second test, and in the
second branch the lock, the write of `lastOffTS` and the unlock. -/
def _commitRumble_accesses (hw : ChisCartridgeHardware) : List Access :=
  if hw.rumbleWaitCommit = 1 then
    [Access.read SharedField.rumbleWaitCommit, Access.lock,
      Access.write SharedField.lastOffTS, Access.write SharedField.rumble, Access.unlock]
  else if hw.rumbleWaitCommit = 0 then
    [Access.read SharedField.rumbleWaitCommit, Access.read SharedField.rumbleWaitCommit,
      Access.lock, Access.write SharedField.lastOffTS, Access.unlock]
  else
    [Access.read SharedField.rumbleWaitCommit, Access.read SharedField.rumbleWaitCommit]

/-- The reads made by the test in the critical section of `_rumbleOff`, with
the short-circuit evaluation of `&&`. -/
def _rumbleOff_test_accesses (hw : ChisCartridgeHardware) : List Access :=
  Access.read SharedField.rumbleWaitCommit ::
    if hw.rumbleWaitCommit = 0 then
      Access.read SharedField.rumble ::
        if hw.rumble = 1 then
          Access.read SharedField.lastOffTS ::
            if hw.lastOffTS ≠ 0 then [Access.read SharedField.lastOffTS] else []
        else []
    else []

/-- The reads of `lastOffTS` made after `MutexUnlock` in a pass of
`_rumbleOff`, to choose the sleep: the three tests with short-circuit
evaluation, then the argument of `_sleep_cross_platform`; `deadline` is the
value of `lastOffTS` the critical section left. -/
def _rumbleOff_sleep_accesses (deadline ts : Nat) : List Access :=
  Access.read SharedField.lastOffTS ::
    if deadline ≠ 0 then
      Access.read SharedField.lastOffTS ::
        if deadline > ts then
          Access.read SharedField.lastOffTS ::
            if deadline - ts > 10 then [Access.read SharedField.lastOffTS] else []
        else []
    else []

/-- The accesses of one pass of the loop of `_rumbleOff` in program order. -/
def _rumbleOff_iteration_accesses (hw : ChisCartridgeHardware) (ts : Nat) : List Access :=
  if hw.rumbleWaitCommit = 0 ∧ hw.rumble = 1 ∧ hw.lastOffTS ≠ 0 ∧ hw.lastOffTS < ts then
    (Access.lock :: _rumbleOff_test_accesses hw ++
      [Access.write SharedField.rumble, Access.write SharedField.lastOffTS]) ++
      Access.unlock :: _rumbleOff_sleep_accesses 0 ts
  else
    (Access.lock :: _rumbleOff_test_accesses hw) ++
      Access.unlock :: _rumbleOff_sleep_accesses hw.lastOffTS ts

/-- The accesses of `ChisCartridgeHardwareWrite32` in program order: the
assignments of `rumbleWaitCommit` in the idle, `EZ_RUMBLE_START_CMD_4` and
`EZ_RUMBLE_END_CMD_6` branches, and the accesses of the calls of
`_commitRumble`. -/
def ChisCartridgeHardwareWrite32_accesses (hw : ChisCartridgeHardware)
    (address value : Nat) : List Access :=
  let value := value % 0x10000
  let value16 := value % 0x10000
  let value8 := value % 0x100
  if hw.rumbleStatus = EZ_RUMBLE_NONE then
    if address = 0x09FE0000 ∧ value16 = 0xD200 then []
    else if address = 0x09E20000 ∧ value8 = 0x8 then
      [Access.write SharedField.rumbleWaitCommit]
    else if address = 0x08001000 ∧ value8 = 0 then
      Access.write SharedField.rumbleWaitCommit ::
        _commitRumble_accesses { hw with rumbleWaitCommit := 0 }
    else []
  else if hw.rumbleStatus = EZ_RUMBLE_START_CMD_4 then
    if address = 0x09E20000 then
      if value8 = 0xF1 then []
      else if value8 = 7 then [Access.write SharedField.rumbleWaitCommit]
      else if value8 = 8 then [Access.write SharedField.rumbleWaitCommit]
      else []
    else []
  else if hw.rumbleStatus = EZ_RUMBLE_DATA_5_3IN1 then
    if address = 0x09FC0000 ∧ value16 = 0x1500 then _commitRumble_accesses hw else []
  else if hw.rumbleStatus = EZ_RUMBLE_END_CMD_6 then
    if address = 0x08001000 then
      Access.write SharedField.rumbleWaitCommit ::
        _commitRumble_accesses { hw with rumbleWaitCommit := if value8 = 2 then 1 else 0 }
    else []
  else []

/-- The accesses of `ChisCartridgeHardwareDeinit` in program order. -/
def ChisCartridgeHardwareDeinit_accesses : List Access :=
  [Access.write SharedField.rumbleWaitCommit, Access.write SharedField.rumble]

/-- Does every read and write of a list of accesses happen between a
`MutexLock` and the matching `MutexUnlock`; `held` says whether the mutex is
held at the start. -/
def underLock (held : Bool) : List Access → Bool
  | [] => true
  | Access.lock :: rest => underLock true rest
  | Access.unlock :: rest => underLock false rest
  | Access.read _ :: rest => held && underLock held rest
  | Access.write _ :: rest => held && underLock held rest

/-- The transition `ChisCartridgeHardwareWrite32` defines for the current
state, as its branch conditions test it: the start value or the marker in the
idle state, the confirmation in `EZ_RUMBLE_START_CMD_1` to `_3`, a payload in
`EZ_RUMBLE_START_CMD_4`, the terminator in a data state. -/
def definedTransition (hw : ChisCartridgeHardware) (address value : Nat) : Prop :=
  (hw.rumbleStatus = EZ_RUMBLE_NONE ∧
    ((address = 0x09FE0000 ∧ value % 0x10000 = 0xD200) ∨
     (address = 0x09E20000 ∧ value % 0x100 = 0x8))) ∨
  (hw.rumbleStatus = EZ_RUMBLE_START_CMD_1 ∧ address = 0x08000000 ∧ value % 0x10000 = 0x1500) ∨
  (hw.rumbleStatus = EZ_RUMBLE_START_CMD_2 ∧ address = 0x08020000 ∧ value % 0x10000 = 0xD200) ∨
  (hw.rumbleStatus = EZ_RUMBLE_START_CMD_3 ∧ address = 0x08040000 ∧ value % 0x10000 = 0x1500) ∨
  (hw.rumbleStatus = EZ_RUMBLE_START_CMD_4 ∧ address = 0x09E20000 ∧
    (value % 0x100 = 0xF1 ∨ value % 0x100 = 7 ∨ value % 0x100 = 8)) ∨
  ((hw.rumbleStatus = EZ_RUMBLE_DATA_5 ∨ hw.rumbleStatus = EZ_RUMBLE_DATA_5_3IN1) ∧
    address = 0x09FC0000 ∧ value % 0x10000 = 0x1500)

instance (hw : ChisCartridgeHardware) (address value : Nat) :
    Decidable (definedTransition hw address value) := by
  unfold definedTransition
  infer_instance

/-! ## The switch, state by state -/

/-- The branch of the switch of `ChisCartridgeHardwareWrite32` taken in state `EZ_RUMBLE_NONE`. -/
theorem write32_none (hw : ChisCartridgeHardware) (address value ts : Nat) (currentTime : Int)
    (hs : hw.rumbleStatus = EZ_RUMBLE_NONE) :
    ChisCartridgeHardwareWrite32 hw address value ts currentTime =
      if address = 0x09FE0000 ∧ value % 0x10000 = 0xD200 then
        some { hw with rumbleStatus := EZ_RUMBLE_START_CMD_1 }
      else if address = 0x09E20000 ∧ value % 0x100 = 0x8 then
        some { hw with rumbleWaitCommit := 0, rumbleStatus := EZ_RUMBLE_DATA_5 }
      else if address = 0x08001000 ∧ value % 0x100 = 0 then
        (_commitRumble { hw with rumbleWaitCommit := 0 } ts currentTime).map
          fun h => { h with rumbleStatus := EZ_RUMBLE_NONE }
      else
        some { hw with rumbleStatus := EZ_RUMBLE_NONE } := by
  have h8 : value % 0x10000 % 0x100 = value % 0x100 := by omega
  unfold ChisCartridgeHardwareWrite32
  simp only [hs, EZ_RUMBLE_NONE, EZ_RUMBLE_START_CMD_1, EZ_RUMBLE_START_CMD_2,
    EZ_RUMBLE_START_CMD_3, EZ_RUMBLE_START_CMD_4, EZ_RUMBLE_DATA_5, EZ_RUMBLE_DATA_5_3IN1,
    EZ_RUMBLE_END_CMD_6, Nat.mod_mod, h8, reduceIte, Nat.reduceEqDiff,
    OfNat.ofNat_ne_zero, one_ne_zero, ite_self, or_self, or_true, true_or, or_false]

/-- The branch of the switch of `ChisCartridgeHardwareWrite32` taken in state `EZ_RUMBLE_START_CMD_1`. -/
theorem write32_cmd1 (hw : ChisCartridgeHardware) (address value ts : Nat) (currentTime : Int)
    (hs : hw.rumbleStatus = EZ_RUMBLE_START_CMD_1) :
    ChisCartridgeHardwareWrite32 hw address value ts currentTime =
      if address = 0x08000000 ∧ value % 0x10000 = 0x1500 then
        some { hw with rumbleStatus := EZ_RUMBLE_START_CMD_2 }
      else
        some { hw with rumbleStatus := EZ_RUMBLE_NONE } := by
  have h8 : value % 0x10000 % 0x100 = value % 0x100 := by omega
  unfold ChisCartridgeHardwareWrite32
  simp only [hs, EZ_RUMBLE_NONE, EZ_RUMBLE_START_CMD_1, EZ_RUMBLE_START_CMD_2,
    EZ_RUMBLE_START_CMD_3, EZ_RUMBLE_START_CMD_4, EZ_RUMBLE_DATA_5, EZ_RUMBLE_DATA_5_3IN1,
    EZ_RUMBLE_END_CMD_6, Nat.mod_mod, h8, reduceIte, Nat.reduceEqDiff,
    OfNat.ofNat_ne_zero, one_ne_zero, ite_self, or_self, or_true, true_or, or_false]

/-- The branch of the switch of `ChisCartridgeHardwareWrite32` taken in state `EZ_RUMBLE_START_CMD_2`. -/
theorem write32_cmd2 (hw : ChisCartridgeHardware) (address value ts : Nat) (currentTime : Int)
    (hs : hw.rumbleStatus = EZ_RUMBLE_START_CMD_2) :
    ChisCartridgeHardwareWrite32 hw address value ts currentTime =
      if address = 0x08020000 ∧ value % 0x10000 = 0xD200 then
        some { hw with rumbleStatus := EZ_RUMBLE_START_CMD_3 }
      else
        some { hw with rumbleStatus := EZ_RUMBLE_NONE } := by
  have h8 : value % 0x10000 % 0x100 = value % 0x100 := by omega
  unfold ChisCartridgeHardwareWrite32
  simp only [hs, EZ_RUMBLE_NONE, EZ_RUMBLE_START_CMD_1, EZ_RUMBLE_START_CMD_2,
    EZ_RUMBLE_START_CMD_3, EZ_RUMBLE_START_CMD_4, EZ_RUMBLE_DATA_5, EZ_RUMBLE_DATA_5_3IN1,
    EZ_RUMBLE_END_CMD_6, Nat.mod_mod, h8, reduceIte, Nat.reduceEqDiff,
    OfNat.ofNat_ne_zero, one_ne_zero, ite_self, or_self, or_true, true_or, or_false]

/-- The branch of the switch of `ChisCartridgeHardwareWrite32` taken in state `EZ_RUMBLE_START_CMD_3`. -/
theorem write32_cmd3 (hw : ChisCartridgeHardware) (address value ts : Nat) (currentTime : Int)
    (hs : hw.rumbleStatus = EZ_RUMBLE_START_CMD_3) :
    ChisCartridgeHardwareWrite32 hw address value ts currentTime =
      if address = 0x08040000 ∧ value % 0x10000 = 0x1500 then
        some { hw with rumbleStatus := EZ_RUMBLE_START_CMD_4 }
      else
        some { hw with rumbleStatus := EZ_RUMBLE_NONE } := by
  have h8 : value % 0x10000 % 0x100 = value % 0x100 := by omega
  unfold ChisCartridgeHardwareWrite32
  simp only [hs, EZ_RUMBLE_NONE, EZ_RUMBLE_START_CMD_1, EZ_RUMBLE_START_CMD_2,
    EZ_RUMBLE_START_CMD_3, EZ_RUMBLE_START_CMD_4, EZ_RUMBLE_DATA_5, EZ_RUMBLE_DATA_5_3IN1,
    EZ_RUMBLE_END_CMD_6, Nat.mod_mod, h8, reduceIte, Nat.reduceEqDiff,
    OfNat.ofNat_ne_zero, one_ne_zero, ite_self, or_self, or_true, true_or, or_false]

/-- The branch of the switch of `ChisCartridgeHardwareWrite32` taken in state `EZ_RUMBLE_START_CMD_4`. -/
theorem write32_cmd4 (hw : ChisCartridgeHardware) (address value ts : Nat) (currentTime : Int)
    (hs : hw.rumbleStatus = EZ_RUMBLE_START_CMD_4) :
    ChisCartridgeHardwareWrite32 hw address value ts currentTime =
      if address = 0x09E20000 then
        if value % 0x100 = 0xF1 then
          some { hw with rumbleStatus := EZ_RUMBLE_DATA_5 }
        else if value % 0x100 = 7 then
          some { hw with rumbleWaitCommit := 1, rumbleStatus := EZ_RUMBLE_DATA_5 }
        else if value % 0x100 = 8 then
          some { hw with rumbleWaitCommit := 0, rumbleStatus := EZ_RUMBLE_DATA_5 }
        else
          some { hw with rumbleStatus := EZ_RUMBLE_NONE }
      else
        some { hw with rumbleStatus := EZ_RUMBLE_NONE } := by
  have h8 : value % 0x10000 % 0x100 = value % 0x100 := by omega
  unfold ChisCartridgeHardwareWrite32
  simp only [hs, EZ_RUMBLE_NONE, EZ_RUMBLE_START_CMD_1, EZ_RUMBLE_START_CMD_2,
    EZ_RUMBLE_START_CMD_3, EZ_RUMBLE_START_CMD_4, EZ_RUMBLE_DATA_5, EZ_RUMBLE_DATA_5_3IN1,
    EZ_RUMBLE_END_CMD_6, Nat.mod_mod, h8, reduceIte, Nat.reduceEqDiff,
    OfNat.ofNat_ne_zero, one_ne_zero, ite_self, or_self, or_true, true_or, or_false]

/-- The branch of the switch of `ChisCartridgeHardwareWrite32` taken in state `EZ_RUMBLE_DATA_5`. -/
theorem write32_data5 (hw : ChisCartridgeHardware) (address value ts : Nat) (currentTime : Int)
    (hs : hw.rumbleStatus = EZ_RUMBLE_DATA_5) :
    ChisCartridgeHardwareWrite32 hw address value ts currentTime =
      if address = 0x09FC0000 ∧ value % 0x10000 = 0x1500 then
        some { hw with rumbleStatus := EZ_RUMBLE_END_CMD_6 }
      else
        some { hw with rumbleStatus := EZ_RUMBLE_NONE } := by
  have h8 : value % 0x10000 % 0x100 = value % 0x100 := by omega
  unfold ChisCartridgeHardwareWrite32
  simp only [hs, EZ_RUMBLE_NONE, EZ_RUMBLE_START_CMD_1, EZ_RUMBLE_START_CMD_2,
    EZ_RUMBLE_START_CMD_3, EZ_RUMBLE_START_CMD_4, EZ_RUMBLE_DATA_5, EZ_RUMBLE_DATA_5_3IN1,
    EZ_RUMBLE_END_CMD_6, Nat.mod_mod, h8, reduceIte, Nat.reduceEqDiff,
    OfNat.ofNat_ne_zero, one_ne_zero, ite_self, or_self, or_true, true_or, or_false]

/-- The branch of the switch of `ChisCartridgeHardwareWrite32` taken in state `EZ_RUMBLE_DATA_5_3IN1`. -/
theorem write32_data5_3in1 (hw : ChisCartridgeHardware) (address value ts : Nat) (currentTime : Int)
    (hs : hw.rumbleStatus = EZ_RUMBLE_DATA_5_3IN1) :
    ChisCartridgeHardwareWrite32 hw address value ts currentTime =
      if address = 0x09FC0000 ∧ value % 0x10000 = 0x1500 then
        (_commitRumble hw ts currentTime).map
          fun h => { h with rumbleStatus := EZ_RUMBLE_NONE }
      else
        some { hw with rumbleStatus := EZ_RUMBLE_NONE } := by
  have h8 : value % 0x10000 % 0x100 = value % 0x100 := by omega
  unfold ChisCartridgeHardwareWrite32
  simp only [hs, EZ_RUMBLE_NONE, EZ_RUMBLE_START_CMD_1, EZ_RUMBLE_START_CMD_2,
    EZ_RUMBLE_START_CMD_3, EZ_RUMBLE_START_CMD_4, EZ_RUMBLE_DATA_5, EZ_RUMBLE_DATA_5_3IN1,
    EZ_RUMBLE_END_CMD_6, Nat.mod_mod, h8, reduceIte, Nat.reduceEqDiff,
    OfNat.ofNat_ne_zero, one_ne_zero, ite_self, or_self, or_true, true_or, or_false]

/-- The branch of the switch of `ChisCartridgeHardwareWrite32` taken in state `EZ_RUMBLE_END_CMD_6`. -/
theorem write32_end6 (hw : ChisCartridgeHardware) (address value ts : Nat) (currentTime : Int)
    (hs : hw.rumbleStatus = EZ_RUMBLE_END_CMD_6) :
    ChisCartridgeHardwareWrite32 hw address value ts currentTime =
      if address = 0x08001000 then
        (_commitRumble
          { hw with rumbleWaitCommit := if value % 0x100 = 2 then 1 else 0 } ts currentTime).map
          fun h => { h with rumbleStatus := EZ_RUMBLE_NONE }
      else
        some { hw with rumbleStatus := EZ_RUMBLE_NONE } := by
  have h8 : value % 0x10000 % 0x100 = value % 0x100 := by omega
  unfold ChisCartridgeHardwareWrite32
  simp only [hs, EZ_RUMBLE_NONE, EZ_RUMBLE_START_CMD_1, EZ_RUMBLE_START_CMD_2,
    EZ_RUMBLE_START_CMD_3, EZ_RUMBLE_START_CMD_4, EZ_RUMBLE_DATA_5, EZ_RUMBLE_DATA_5_3IN1,
    EZ_RUMBLE_END_CMD_6, Nat.mod_mod, h8, reduceIte, Nat.reduceEqDiff,
    OfNat.ofNat_ne_zero, one_ne_zero, ite_self, or_self, or_true, true_or, or_false]
  by_cases h2 : value % 0x100 = 2 <;> simp only [h2, reduceIte, Nat.reduceEqDiff]

/-- The default branch of the switch: `EZ_RUMBLE_DATA_7` and every value
outside the enumeration. -/
theorem write32_default (hw : ChisCartridgeHardware) (address value ts : Nat)
    (currentTime : Int) (hs : 8 ≤ hw.rumbleStatus) :
    ChisCartridgeHardwareWrite32 hw address value ts currentTime =
      some { hw with rumbleStatus := EZ_RUMBLE_NONE } := by
  have h0 : hw.rumbleStatus ≠ 0 := by omega
  have h1 : hw.rumbleStatus ≠ 1 := by omega
  have h2 : hw.rumbleStatus ≠ 2 := by omega
  have h3 : hw.rumbleStatus ≠ 3 := by omega
  have h4 : hw.rumbleStatus ≠ 4 := by omega
  have h5 : hw.rumbleStatus ≠ 5 := by omega
  have h6 : hw.rumbleStatus ≠ 6 := by omega
  have h7 : hw.rumbleStatus ≠ 7 := by omega
  unfold ChisCartridgeHardwareWrite32
  simp only [h0, h1, h2, h3, h4, h5, h6, h7, EZ_RUMBLE_NONE, EZ_RUMBLE_START_CMD_1, EZ_RUMBLE_START_CMD_2,
    EZ_RUMBLE_START_CMD_3, EZ_RUMBLE_START_CMD_4, EZ_RUMBLE_DATA_5, EZ_RUMBLE_DATA_5_3IN1,
    EZ_RUMBLE_END_CMD_6, reduceIte, or_self]

/-- Every value of `rumbleStatus` is one of the eight cased enumerators or
falls to the default branch. -/
theorem rumbleStatus_cases (n : Nat) :
    n = EZ_RUMBLE_NONE ∨ n = EZ_RUMBLE_START_CMD_1 ∨ n = EZ_RUMBLE_START_CMD_2 ∨
    n = EZ_RUMBLE_START_CMD_3 ∨ n = EZ_RUMBLE_START_CMD_4 ∨ n = EZ_RUMBLE_DATA_5 ∨
    n = EZ_RUMBLE_DATA_5_3IN1 ∨ n = EZ_RUMBLE_END_CMD_6 ∨ 8 ≤ n := by
  simp only [EZ_RUMBLE_NONE, EZ_RUMBLE_START_CMD_1, EZ_RUMBLE_START_CMD_2,
    EZ_RUMBLE_START_CMD_3, EZ_RUMBLE_START_CMD_4, EZ_RUMBLE_DATA_5, EZ_RUMBLE_DATA_5_3IN1,
    EZ_RUMBLE_END_CMD_6]
  omega

/-- A write that does not complete a sequence only moves `rumbleStatus` and
possibly latches `rumbleWaitCommit`. -/
theorem write32_of_not_completes (hw : ChisCartridgeHardware) (address value ts : Nat)
    (currentTime : Int) (hn : ¬ completesSequence hw address value) :
    ∃ st wc, ChisCartridgeHardwareWrite32 hw address value ts currentTime =
      some { hw with rumbleStatus := st, rumbleWaitCommit := wc } := by
  unfold completesSequence at hn
  rcases rumbleStatus_cases hw.rumbleStatus with h | h | h | h | h | h | h | h | h
  · rw [write32_none _ _ _ _ _ h]
    have h3 : ¬ (address = 0x08001000 ∧ value % 0x100 = 0) := fun hh => hn (Or.inl ⟨h, hh⟩)
    simp only [h3, reduceIte]
    split_ifs
    · exact ⟨_, hw.rumbleWaitCommit, rfl⟩
    · exact ⟨_, 0, rfl⟩
    · exact ⟨_, hw.rumbleWaitCommit, rfl⟩
  · rw [write32_cmd1 _ _ _ _ _ h]
    split_ifs <;> exact ⟨_, hw.rumbleWaitCommit, rfl⟩
  · rw [write32_cmd2 _ _ _ _ _ h]
    split_ifs <;> exact ⟨_, hw.rumbleWaitCommit, rfl⟩
  · rw [write32_cmd3 _ _ _ _ _ h]
    split_ifs <;> exact ⟨_, hw.rumbleWaitCommit, rfl⟩
  · rw [write32_cmd4 _ _ _ _ _ h]
    split_ifs
    · exact ⟨_, hw.rumbleWaitCommit, rfl⟩
    · exact ⟨_, 1, rfl⟩
    · exact ⟨_, 0, rfl⟩
    · exact ⟨_, hw.rumbleWaitCommit, rfl⟩
    · exact ⟨_, hw.rumbleWaitCommit, rfl⟩
  · rw [write32_data5 _ _ _ _ _ h]
    split_ifs <;> exact ⟨_, hw.rumbleWaitCommit, rfl⟩
  · rw [write32_data5_3in1 _ _ _ _ _ h]
    have h3 : ¬ (address = 0x09FC0000 ∧ value % 0x10000 = 0x1500) :=
      fun hh => hn (Or.inr (Or.inr ⟨h, hh⟩))
    simp only [h3, reduceIte]
    exact ⟨_, hw.rumbleWaitCommit, rfl⟩
  · rw [write32_end6 _ _ _ _ _ h]
    have h3 : ¬ (address = 0x08001000) := fun hh => hn (Or.inr (Or.inl ⟨h, hh⟩))
    simp only [h3, reduceIte]
    exact ⟨_, hw.rumbleWaitCommit, rfl⟩
  · rw [write32_default _ _ _ _ _ h]
    exact ⟨_, hw.rumbleWaitCommit, rfl⟩

/-- A write that completes a sequence latches an intent, calls `_commitRumble`
and returns to the idle state. -/
theorem write32_of_completes (hw : ChisCartridgeHardware) (address value ts : Nat)
    (currentTime : Int) (hc : completesSequence hw address value) :
    ∃ wc, ChisCartridgeHardwareWrite32 hw address value ts currentTime =
      (_commitRumble { hw with rumbleWaitCommit := wc } ts currentTime).map
        fun h => { h with rumbleStatus := EZ_RUMBLE_NONE } := by
  rcases hc with ⟨h, ha, hv⟩ | ⟨h, ha⟩ | ⟨h, ha, hv⟩
  · rw [write32_none _ _ _ _ _ h]
    simp only [ha, hv, Nat.reduceEqDiff, false_and, true_and, reduceIte, and_self]
    exact ⟨0, rfl⟩
  · rw [write32_end6 _ _ _ _ _ h]
    simp only [ha, reduceIte]
    exact ⟨_, rfl⟩
  · rw [write32_data5_3in1 _ _ _ _ _ h]
    simp only [ha, hv, and_self, reduceIte]
    exact ⟨hw.rumbleWaitCommit, rfl⟩

/-! ## The commit step -/

/-- With a non-null `gpio` and an actuator attached, `_setRumble` makes one
call and stores the timing value. -/
theorem setRumble_attached (hw : ChisCartridgeHardware) (g : GBACartridgeHardware)
    (enable : Bool) (currentTime : Int) (hg : hw.gpio = some g) (hr : g.rumble = true) :
    _setRumble hw enable currentTime =
      some { hw with
        calls := hw.calls ++ [(enable, wrapInt32 (currentTime - g.lastRumble))]
        gpio := some { g with lastRumble := currentTime } } := by
  unfold _setRumble
  simp only [hg, hr, Bool.true_eq_false, reduceIte]

/-- With a non-null `gpio` and no actuator, `_setRumble` does nothing. -/
theorem setRumble_absent (hw : ChisCartridgeHardware) (g : GBACartridgeHardware)
    (enable : Bool) (currentTime : Int) (hg : hw.gpio = some g) (hr : g.rumble = false) :
    _setRumble hw enable currentTime = some hw := by
  unfold _setRumble
  simp only [hg, hr, reduceIte]

/-- The first branch of `_commitRumble`, intent "immediate on". -/
theorem commitRumble_on (hw : ChisCartridgeHardware) (g : GBACartridgeHardware)
    (ts : Nat) (currentTime : Int) (hg : hw.gpio = some g) (hr : g.rumble = true)
    (hc : hw.rumbleWaitCommit = 1) :
    _commitRumble hw ts currentTime =
      some { hw with
        commits := hw.commits + 1
        lastOffTS := 0
        calls := hw.calls ++ [(true, wrapInt32 (currentTime - g.lastRumble))]
        gpio := some { g with lastRumble := currentTime }
        rumble := 1 } := by
  unfold _commitRumble
  simp only [hc, reduceIte]
  rw [setRumble_attached _ g true currentTime ?_ hr]
  · rfl
  · exact hg

/-- The second branch of `_commitRumble`, intent "delayed off". -/
theorem commitRumble_off (hw : ChisCartridgeHardware) (g : GBACartridgeHardware)
    (ts : Nat) (currentTime : Int) (hg : hw.gpio = some g) (hr : g.rumble = true)
    (hc : hw.rumbleWaitCommit = 0) :
    _commitRumble hw ts currentTime =
      some { hw with
        commits := hw.commits + 1
        calls := hw.calls ++ [(true, wrapInt32 (currentTime - g.lastRumble))]
        gpio := some { g with lastRumble := currentTime }
        lastOffTS := (ts + RUMBLE_DELAY_MS) % 2 ^ 64 } := by
  unfold _commitRumble
  simp only [hc, zero_ne_one, reduceIte]
  rw [setRumble_attached _ g true currentTime ?_ hr]
  · rfl
  · exact hg

/-- Whatever `_setRumble` does, it leaves the fields of the record other than
`gpio` and the log of calls alone, keeps `gpio` non-null and keeps the actuator. -/
theorem setRumble_frame (hw h : ChisCartridgeHardware) (enable : Bool) (currentTime : Int)
    (he : _setRumble hw enable currentTime = some h) :
    h.rumbleStatus = hw.rumbleStatus ∧ h.rumble = hw.rumble ∧
    h.rumbleWaitCommit = hw.rumbleWaitCommit ∧ h.lastOffTS = hw.lastOffTS ∧
    h.stopThread = hw.stopThread ∧ h.commits = hw.commits ∧
    ∃ g g1, hw.gpio = some g ∧ h.gpio = some g1 ∧ g1.rumble = g.rumble ∧
      h.calls = hw.calls ++
        (if g.rumble = true then [(enable, wrapInt32 (currentTime - g.lastRumble))] else []) := by
  unfold _setRumble at he
  cases hg : hw.gpio with
  | none => simp only [hg] at he; exact absurd he (by simp)
  | some g =>
    simp only [hg] at he
    cases hr : g.rumble with
    | false =>
      simp only [hr, reduceIte, Option.some.injEq] at he
      subst he
      refine ⟨rfl, rfl, rfl, rfl, rfl, rfl, g, g, rfl, hg, rfl, ?_⟩
      simp [hr]
    | true =>
      simp only [hr, Bool.true_eq_false, reduceIte, Option.some.injEq] at he
      subst he
      refine ⟨rfl, rfl, rfl, rfl, rfl, rfl, g, _, rfl, rfl, hr.symm, ?_⟩
      simp [hr]

/-- With a non-null `gpio`, `_setRumble` returns. -/
theorem setRumble_total (hw : ChisCartridgeHardware) (g : GBACartridgeHardware)
    (enable : Bool) (currentTime : Int) (hg : hw.gpio = some g) :
    ∃ h, _setRumble hw enable currentTime = some h := by
  unfold _setRumble
  simp only [hg]
  split_ifs <;> exact ⟨_, rfl⟩

/-- With a non-null `gpio`, `_commitRumble` returns, and `gpio` stays non-null. -/
theorem commitRumble_total (hw : ChisCartridgeHardware) (g : GBACartridgeHardware)
    (ts : Nat) (currentTime : Int) (hg : hw.gpio = some g) :
    ∃ h g1, _commitRumble hw ts currentTime = some h ∧ h.gpio = some g1 := by
  unfold _commitRumble
  simp only
  split_ifs
  · obtain ⟨h, he⟩ := setRumble_total
      { hw with commits := hw.commits + 1, lastOffTS := 0 } g true currentTime hg
    obtain ⟨_, _, _, _, _, _, _, g1, _, hg1, _⟩ := setRumble_frame _ _ _ _ he
    exact ⟨{ h with rumble := 1 }, g1, by rw [he]; rfl, hg1⟩
  · obtain ⟨h, he⟩ := setRumble_total
      { hw with commits := hw.commits + 1 } g true currentTime hg
    obtain ⟨_, _, _, _, _, _, _, g1, _, hg1, _⟩ := setRumble_frame _ _ _ _ he
    exact ⟨{ h with lastOffTS := (ts + RUMBLE_DELAY_MS) % 2 ^ 64 }, g1, by rw [he]; rfl, hg1⟩
  · exact ⟨_, g, rfl, hg⟩

/-- Each call of `_commitRumble` that returns is counted once. -/
theorem commitRumble_commits (hw h : ChisCartridgeHardware) (ts : Nat) (currentTime : Int)
    (he : _commitRumble hw ts currentTime = some h) : h.commits = hw.commits + 1 := by
  unfold _commitRumble at he
  simp only at he
  split_ifs at he
  · obtain ⟨h0, he0, rfl⟩ := Option.map_eq_some'.mp he
    exact (setRumble_frame _ _ _ _ he0).2.2.2.2.2.1
  · obtain ⟨h0, he0, rfl⟩ := Option.map_eq_some'.mp he
    exact (setRumble_frame _ _ _ _ he0).2.2.2.2.2.1
  · simp only [Option.some.injEq] at he
    subst he
    rfl

/-! ## The scheduler pass -/

/-- When the test of the scheduler pass fails, the pass changes nothing. -/
theorem rumbleOff_iteration_of_not_due (hw : ChisCartridgeHardware) (ts : Nat)
    (currentTime : Int)
    (hn : ¬ (hw.rumbleWaitCommit = 0 ∧ hw.rumble = 1 ∧ hw.lastOffTS ≠ 0 ∧ hw.lastOffTS < ts)) :
    _rumbleOff_iteration hw ts currentTime = some hw := by
  unfold _rumbleOff_iteration
  rw [if_neg hn]

/-- When the test of the scheduler pass holds and an actuator is attached, the
pass calls it with `enable = false`, clears the motor flag and the deadline. -/
theorem rumbleOff_iteration_of_due (hw : ChisCartridgeHardware) (g : GBACartridgeHardware)
    (ts : Nat) (currentTime : Int) (hg : hw.gpio = some g) (hr : g.rumble = true)
    (hd : hw.rumbleWaitCommit = 0 ∧ hw.rumble = 1 ∧ hw.lastOffTS ≠ 0 ∧ hw.lastOffTS < ts) :
    _rumbleOff_iteration hw ts currentTime =
      some { hw with
        calls := hw.calls ++ [(false, wrapInt32 (currentTime - g.lastRumble))]
        gpio := some { g with lastRumble := currentTime }
        rumble := 0
        lastOffTS := 0 } := by
  unfold _rumbleOff_iteration
  rw [if_pos hd, setRumble_attached hw g false currentTime hg hr]
  rfl

/-- With a non-null `gpio`, the scheduler pass returns and `gpio` stays
non-null. -/
theorem rumbleOff_iteration_total (hw : ChisCartridgeHardware) (g : GBACartridgeHardware)
    (ts : Nat) (currentTime : Int) (hg : hw.gpio = some g) :
    ∃ h g1, _rumbleOff_iteration hw ts currentTime = some h ∧ h.gpio = some g1 := by
  unfold _rumbleOff_iteration
  split_ifs
  · obtain ⟨h, he⟩ := setRumble_total hw g false currentTime hg
    obtain ⟨_, _, _, _, _, _, _, g1, _, hg1, _⟩ := setRumble_frame _ _ _ _ he
    exact ⟨{ h with rumble := 0, lastOffTS := 0 }, g1, by rw [he]; rfl, hg1⟩
  · exact ⟨hw, g, rfl, hg⟩

/-- The scheduler pass never enters `_commitRumble`, and with no deadline set
it changes nothing. -/
theorem rumbleOff_iteration_frame (hw h : ChisCartridgeHardware) (ts : Nat)
    (currentTime : Int) (he : _rumbleOff_iteration hw ts currentTime = some h) :
    h.commits = hw.commits ∧ (hw.lastOffTS = 0 → h = hw) := by
  unfold _rumbleOff_iteration at he
  split_ifs at he with hd
  · obtain ⟨h0, he0, rfl⟩ := Option.map_eq_some'.mp he
    exact ⟨(setRumble_frame _ _ _ _ he0).2.2.2.2.2.1, fun h0 => absurd h0 hd.2.2.1⟩
  · simp only [Option.some.injEq] at he
    subst he
    exact ⟨rfl, fun _ => rfl⟩

/-! ## Writes and the commit count -/

/-- With a non-null `gpio`, `ChisCartridgeHardwareWrite32` returns and `gpio`
stays non-null. -/
theorem write32_total (hw : ChisCartridgeHardware) (g : GBACartridgeHardware)
    (address value ts : Nat) (currentTime : Int) (hg : hw.gpio = some g) :
    ∃ h g1, ChisCartridgeHardwareWrite32 hw address value ts currentTime = some h ∧
      h.gpio = some g1 := by
  by_cases hc : completesSequence hw address value
  · obtain ⟨wc, he⟩ := write32_of_completes hw address value ts currentTime hc
    obtain ⟨h, g1, hh, hg1⟩ :=
      commitRumble_total { hw with rumbleWaitCommit := wc } g ts currentTime hg
    exact ⟨{ h with rumbleStatus := EZ_RUMBLE_NONE }, g1, by rw [he, hh]; rfl, hg1⟩
  · obtain ⟨st, wc, he⟩ := write32_of_not_completes hw address value ts currentTime hc
    exact ⟨_, g, he, hg⟩

/-- A write enters `_commitRumble` at most once, and exactly when it completes
a sequence; a write that does not makes no actuator call and leaves the motor
flag, the deadline and `gpio` as they were. -/
theorem write32_frame (hw h : ChisCartridgeHardware) (address value ts : Nat)
    (currentTime : Int)
    (he : ChisCartridgeHardwareWrite32 hw address value ts currentTime = some h) :
    (completesSequence hw address value → h.commits = hw.commits + 1) ∧
    (¬ completesSequence hw address value →
      h.commits = hw.commits ∧ h.rumble = hw.rumble ∧ h.lastOffTS = hw.lastOffTS ∧
      h.calls = hw.calls ∧ h.gpio = hw.gpio ∧ h.stopThread = hw.stopThread) := by
  constructor
  · intro hc
    obtain ⟨wc, hw32⟩ := write32_of_completes hw address value ts currentTime hc
    rw [hw32] at he
    obtain ⟨h0, he0, rfl⟩ := Option.map_eq_some'.mp he
    have hcount := commitRumble_commits _ _ _ _ he0
    exact hcount
  · intro hc
    obtain ⟨st, wc, hw32⟩ := write32_of_not_completes hw address value ts currentTime hc
    rw [hw32] at he
    simp only [Option.some.injEq] at he
    subst he
    exact ⟨rfl, rfl, rfl, rfl, rfl, rfl⟩

/-- An event never lowers the commit count; an event that leaves it where it
was, run with no deadline set, makes no actuator call and leaves the motor
flag and the (cleared) deadline as they were. -/
theorem step_frame (hw h : ChisCartridgeHardware) (e : Event) (he : step hw e = some h) :
    hw.commits ≤ h.commits ∧
    (h.commits = hw.commits → hw.lastOffTS = 0 →
      h.lastOffTS = 0 ∧ h.rumble = hw.rumble ∧ h.calls = hw.calls) := by
  cases e with
  | write w =>
    simp only [step, deliver] at he
    obtain ⟨h1, h2⟩ := write32_frame _ _ _ _ _ _ he
    by_cases hc : completesSequence hw w.address w.value
    · have := h1 hc
      exact ⟨by omega, fun hh => by omega⟩
    · obtain ⟨a, b, c, d, _, _⟩ := h2 hc
      exact ⟨by omega, fun _ h0 => ⟨by rw [c, h0], b, d⟩⟩
  | tick ts currentTime =>
    simp only [step] at he
    obtain ⟨h1, h2⟩ := rumbleOff_iteration_frame _ _ _ _ he
    refine ⟨by omega, fun _ h0 => ?_⟩
    rw [h2 h0]
    exact ⟨h0, rfl, rfl⟩

/-- With a non-null `gpio`, an event returns and `gpio` stays non-null. -/
theorem step_total (hw : ChisCartridgeHardware) (g : GBACartridgeHardware) (e : Event)
    (hg : hw.gpio = some g) : ∃ h g1, step hw e = some h ∧ h.gpio = some g1 := by
  cases e with
  | write w => exact write32_total hw g _ _ _ _ hg
  | tick ts currentTime => exact rumbleOff_iteration_total hw g ts currentTime hg

/-- With a non-null `gpio`, every list of events runs to its end. -/
theorem run_total (es : List Event) (hw : ChisCartridgeHardware) (g : GBACartridgeHardware)
    (hg : hw.gpio = some g) : ∃ h g1, run hw es = some h ∧ h.gpio = some g1 := by
  induction es generalizing hw g with
  | nil => exact ⟨hw, g, rfl, hg⟩
  | cons e es ih =>
    obtain ⟨h1, g1, he, hg1⟩ := step_total hw g e hg
    obtain ⟨h2, g2, hr, hg2⟩ := ih h1 g1 hg1
    exact ⟨h2, g2, by simp only [run, he, Option.some_bind, hr], hg2⟩

/-- A run never lowers the commit count; a run that leaves it where it was,
started with no deadline set, makes no actuator call and leaves the motor flag
and the (cleared) deadline as they were. -/
theorem run_frame (es : List Event) (hw h : ChisCartridgeHardware)
    (he : run hw es = some h) :
    hw.commits ≤ h.commits ∧
    (h.commits = hw.commits → hw.lastOffTS = 0 →
      h.lastOffTS = 0 ∧ h.rumble = hw.rumble ∧ h.calls = hw.calls) := by
  induction es generalizing hw with
  | nil =>
    simp only [run, Option.some.injEq] at he
    subst he
    exact ⟨le_refl _, fun _ h0 => ⟨h0, rfl, rfl⟩⟩
  | cons e es ih =>
    simp only [run] at he
    obtain ⟨h1, he1, he2⟩ := Option.bind_eq_some.mp he
    obtain ⟨a1, b1⟩ := step_frame hw h1 e he1
    obtain ⟨a2, b2⟩ := ih h1 he2
    refine ⟨by omega, fun hc h0 => ?_⟩
    obtain ⟨c1, c2, c3⟩ := b1 (by omega) h0
    obtain ⟨d1, d2, d3⟩ := b2 (by omega) c1
    exact ⟨d1, by rw [d2, c2], by rw [d3, c3]⟩

/-- The first branch of `_commitRumble` with a non-null `gpio`, whether or not
an actuator is attached. -/
theorem commitRumble_on_eq (hw : ChisCartridgeHardware) (g : GBACartridgeHardware)
    (ts : Nat) (currentTime : Int) (hg : hw.gpio = some g) (hc : hw.rumbleWaitCommit = 1) :
    _commitRumble hw ts currentTime =
      some { hw with
        commits := hw.commits + 1
        lastOffTS := 0
        rumble := 1
        calls := hw.calls ++
          (if g.rumble = true then [(true, wrapInt32 (currentTime - g.lastRumble))] else [])
        gpio := some (if g.rumble = true then { g with lastRumble := currentTime } else g) } := by
  by_cases hr : g.rumble = true
  · rw [commitRumble_on hw g ts currentTime hg hr hc]
    simp only [hr, reduceIte]
  · have hf : g.rumble = false := by simpa using hr
    unfold _commitRumble
    simp only [hc, reduceIte]
    rw [setRumble_absent _ g true currentTime ?_ hf]
    · simp only [hf, Bool.false_eq_true, reduceIte, List.append_nil, Option.map_some', hg]
    · exact hg

/-- The second branch of `_commitRumble` with a non-null `gpio`, whether or
not an actuator is attached. -/
theorem commitRumble_off_eq (hw : ChisCartridgeHardware) (g : GBACartridgeHardware)
    (ts : Nat) (currentTime : Int) (hg : hw.gpio = some g) (hc : hw.rumbleWaitCommit = 0) :
    _commitRumble hw ts currentTime =
      some { hw with
        commits := hw.commits + 1
        lastOffTS := (ts + RUMBLE_DELAY_MS) % 2 ^ 64
        calls := hw.calls ++
          (if g.rumble = true then [(true, wrapInt32 (currentTime - g.lastRumble))] else [])
        gpio := some (if g.rumble = true then { g with lastRumble := currentTime } else g) } := by
  by_cases hr : g.rumble = true
  · rw [commitRumble_off hw g ts currentTime hg hr hc]
    simp only [hr, reduceIte]
  · have hf : g.rumble = false := by simpa using hr
    unfold _commitRumble
    simp only [hc, zero_ne_one, reduceIte]
    rw [setRumble_absent _ g true currentTime ?_ hf]
    · simp only [hf, Bool.false_eq_true, reduceIte, List.append_nil, Option.map_some', hg]
    · exact hg

/-! ## The ezode sequence -/

/-- From the idle state the first six writes of the ezode sequence lead to
`EZ_RUMBLE_END_CMD_6` and change nothing else, so that the whole sequence
behaves as its last write delivered in that state. -/
theorem ezodeSequence_last (hw : ChisCartridgeHardware) (final : Nat)
    (clock : Nat → Nat × Int) (hidle : hw.rumbleStatus = EZ_RUMBLE_NONE) :
    deliverAll hw (ezodeSequence final clock) =
      ChisCartridgeHardwareWrite32 { hw with rumbleStatus := EZ_RUMBLE_END_CMD_6 }
        0x08001000 final (clock 6).1 (clock 6).2 := by
  simp only [ezodeSequence, deliverAll, deliver]
  rw [write32_none hw _ _ _ _ hidle]
  simp only [true_and, Nat.reduceMod, reduceIte, Option.some_bind]
  rw [write32_cmd1 _ _ _ _ _ rfl]
  simp only [true_and, Nat.reduceMod, reduceIte, Option.some_bind]
  rw [write32_cmd2 _ _ _ _ _ rfl]
  simp only [true_and, Nat.reduceMod, reduceIte, Option.some_bind]
  rw [write32_cmd3 _ _ _ _ _ rfl]
  simp only [true_and, Nat.reduceMod, reduceIte, Option.some_bind]
  rw [write32_cmd4 _ _ _ _ _ rfl]
  simp only [true_and, Nat.reduceMod, reduceIte, Option.some_bind]
  rw [write32_data5 _ _ _ _ _ rfl]
  simp only [true_and, Nat.reduceMod, reduceIte, Option.some_bind, Option.bind_some]

/-- The whole ezode sequence from an idle state with a non-null `gpio`: one
commit, decided by the low byte of the last write alone. -/
theorem ezodeSequence_eq (hw : ChisCartridgeHardware) (g : GBACartridgeHardware)
    (final : Nat) (clock : Nat → Nat × Int)
    (hidle : hw.rumbleStatus = EZ_RUMBLE_NONE) (hg : hw.gpio = some g) :
    deliverAll hw (ezodeSequence final clock) =
      some { hw with
        rumbleStatus := EZ_RUMBLE_NONE
        rumbleWaitCommit := if final % 0x100 = 2 then 1 else 0
        commits := hw.commits + 1
        lastOffTS := if final % 0x100 = 2 then 0 else ((clock 6).1 + RUMBLE_DELAY_MS) % 2 ^ 64
        rumble := if final % 0x100 = 2 then 1 else hw.rumble
        calls := hw.calls ++
          (if g.rumble = true then [(true, wrapInt32 ((clock 6).2 - g.lastRumble))] else [])
        gpio := some (if g.rumble = true then { g with lastRumble := (clock 6).2 } else g) } := by
  rw [ezodeSequence_last hw final clock hidle, write32_end6 _ _ _ _ _ rfl]
  simp only [reduceIte]
  by_cases h2 : final % 0x100 = 2
  · simp only [h2, reduceIte]
    rw [commitRumble_on_eq _ g _ _ ?_ ?_]
    · rfl
    · exact hg
    · rfl
  · simp only [h2, reduceIte]
    rw [commitRumble_off_eq _ g _ _ ?_ ?_]
    · rfl
    · exact hg
    · rfl

/-! ## The delayed turn-off when the motor flag is on -/

/-- A "delayed off" commit on a state whose motor flag is already on: the
first scheduler pass that reads a clock value past the deadline calls the
actuator with `enable = false`, clears the motor flag and the deadline, and
every later pass changes nothing. -/
theorem delayed_off_fires_when_motor_on (hw : ChisCartridgeHardware)
    (g : GBACartridgeHardware) (ts late : Nat) (currentTime currentTime1 : Int)
    (hg : hw.gpio = some g) (hr : g.rumble = true)
    (hc : hw.rumbleWaitCommit = 0) (hon : hw.rumble = 1)
    (hset : (ts + RUMBLE_DELAY_MS) % 2 ^ 64 ≠ 0)
    (hlate : (ts + RUMBLE_DELAY_MS) % 2 ^ 64 < late) :
    ∃ h1 h2, _commitRumble hw ts currentTime = some h1 ∧
      _rumbleOff_iteration h1 late currentTime1 = some h2 ∧
      h2.calls = hw.calls ++ [(true, wrapInt32 (currentTime - g.lastRumble)),
        (false, wrapInt32 (currentTime1 - currentTime))] ∧
      h2.rumble = 0 ∧ h2.lastOffTS = 0 ∧
      ∀ ts2 currentTime2, _rumbleOff_iteration h2 ts2 currentTime2 = some h2 := by
  refine ⟨_, _, commitRumble_off hw g ts currentTime hg hr hc,
    rumbleOff_iteration_of_due _ { g with lastRumble := currentTime } late currentTime1
      rfl hr ⟨hc, hon, hset, hlate⟩, ?_, rfl, rfl, fun ts2 currentTime2 => ?_⟩
  · simp only [List.append_assoc, List.singleton_append]
  · exact rumbleOff_iteration_of_not_due _ ts2 currentTime2 (fun hd => hd.2.2.1 rfl)

/-! ## The write as one equation -/

/-- The function `ChisCartridgeHardwareWrite32` in one equation: a write that
completes a sequence latches `nextIntent`, calls `_commitRumble` and returns to
idle; every other write stores `nextStatus` and `nextIntent` and does nothing
else. -/
theorem write32_eq (hw : ChisCartridgeHardware) (address value ts : Nat) (currentTime : Int) :
    ChisCartridgeHardwareWrite32 hw address value ts currentTime =
      if completesSequence hw address value then
        (_commitRumble
          { hw with rumbleWaitCommit :=
              nextIntent hw.rumbleStatus hw.rumbleWaitCommit address value }
          ts currentTime).map fun h => { h with rumbleStatus := EZ_RUMBLE_NONE }
      else
        some { hw with
          rumbleStatus := nextStatus hw.rumbleStatus address value
          rumbleWaitCommit := nextIntent hw.rumbleStatus hw.rumbleWaitCommit address value } := by
  rcases rumbleStatus_cases hw.rumbleStatus with h | h | h | h | h | h | h | h | h
  · rw [write32_none _ _ _ _ _ h]
    simp only [completesSequence, nextStatus, nextIntent, h,
      EZ_RUMBLE_NONE, EZ_RUMBLE_START_CMD_1, EZ_RUMBLE_START_CMD_2,
      EZ_RUMBLE_START_CMD_3, EZ_RUMBLE_START_CMD_4, EZ_RUMBLE_DATA_5, EZ_RUMBLE_DATA_5_3IN1,
      EZ_RUMBLE_END_CMD_6, Nat.reduceEqDiff, false_and, true_and, or_false, false_or,
      reduceIte, OfNat.zero_ne_ofNat, OfNat.ofNat_ne_zero, or_self]
    by_cases c1 : address = 0x09FE0000 ∧ value % 0x10000 = 0xD200
    · obtain ⟨ha, hv⟩ := c1
      subst ha
      simp only [*, Nat.reduceEqDiff, false_and, true_and, and_self, and_true, and_false, reduceIte, not_false_eq_true, or_self, or_true, true_or, or_false, false_or]
    · by_cases c2 : address = 0x09E20000 ∧ value % 0x100 = 0x8
      · obtain ⟨ha, hv⟩ := c2
        subst ha
        simp only [*, Nat.reduceEqDiff, false_and, true_and, and_self, and_true, and_false, reduceIte, not_false_eq_true, or_self, or_true, true_or, or_false, false_or]
      · by_cases c3 : address = 0x08001000 ∧ value % 0x100 = 0
        · simp only [*, Nat.reduceEqDiff, false_and, true_and, and_self, and_true, and_false, reduceIte, not_false_eq_true, or_self, or_true, true_or, or_false, false_or]
        · simp only [*, Nat.reduceEqDiff, false_and, true_and, and_self, and_true, and_false, reduceIte, not_false_eq_true, or_self, or_true, true_or, or_false, false_or]
  · rw [write32_cmd1 _ _ _ _ _ h]
    simp only [completesSequence, nextStatus, nextIntent, h,
      EZ_RUMBLE_NONE, EZ_RUMBLE_START_CMD_1, EZ_RUMBLE_START_CMD_2,
      EZ_RUMBLE_START_CMD_3, EZ_RUMBLE_START_CMD_4, EZ_RUMBLE_DATA_5, EZ_RUMBLE_DATA_5_3IN1,
      EZ_RUMBLE_END_CMD_6, Nat.reduceEqDiff, false_and, true_and, or_false, false_or,
      reduceIte, OfNat.zero_ne_ofNat, OfNat.ofNat_ne_zero, or_self]
    by_cases c1 : address = 0x08000000 ∧ value % 0x10000 = 0x1500
    · simp only [*, Nat.reduceEqDiff, false_and, true_and, and_self, and_true, and_false, reduceIte, not_false_eq_true, or_self, or_true, true_or, or_false, false_or]
    · simp only [*, Nat.reduceEqDiff, false_and, true_and, and_self, and_true, and_false, reduceIte, not_false_eq_true, or_self, or_true, true_or, or_false, false_or]
  · rw [write32_cmd2 _ _ _ _ _ h]
    simp only [completesSequence, nextStatus, nextIntent, h,
      EZ_RUMBLE_NONE, EZ_RUMBLE_START_CMD_1, EZ_RUMBLE_START_CMD_2,
      EZ_RUMBLE_START_CMD_3, EZ_RUMBLE_START_CMD_4, EZ_RUMBLE_DATA_5, EZ_RUMBLE_DATA_5_3IN1,
      EZ_RUMBLE_END_CMD_6, Nat.reduceEqDiff, false_and, true_and, or_false, false_or,
      reduceIte, OfNat.zero_ne_ofNat, OfNat.ofNat_ne_zero, or_self]
    by_cases c1 : address = 0x08020000 ∧ value % 0x10000 = 0xD200
    · simp only [*, Nat.reduceEqDiff, false_and, true_and, and_self, and_true, and_false, reduceIte, not_false_eq_true, or_self, or_true, true_or, or_false, false_or]
    · simp only [*, Nat.reduceEqDiff, false_and, true_and, and_self, and_true, and_false, reduceIte, not_false_eq_true, or_self, or_true, true_or, or_false, false_or]
  · rw [write32_cmd3 _ _ _ _ _ h]
    simp only [completesSequence, nextStatus, nextIntent, h,
      EZ_RUMBLE_NONE, EZ_RUMBLE_START_CMD_1, EZ_RUMBLE_START_CMD_2,
      EZ_RUMBLE_START_CMD_3, EZ_RUMBLE_START_CMD_4, EZ_RUMBLE_DATA_5, EZ_RUMBLE_DATA_5_3IN1,
      EZ_RUMBLE_END_CMD_6, Nat.reduceEqDiff, false_and, true_and, or_false, false_or,
      reduceIte, OfNat.zero_ne_ofNat, OfNat.ofNat_ne_zero, or_self]
    by_cases c1 : address = 0x08040000 ∧ value % 0x10000 = 0x1500
    · simp only [*, Nat.reduceEqDiff, false_and, true_and, and_self, and_true, and_false, reduceIte, not_false_eq_true, or_self, or_true, true_or, or_false, false_or]
    · simp only [*, Nat.reduceEqDiff, false_and, true_and, and_self, and_true, and_false, reduceIte, not_false_eq_true, or_self, or_true, true_or, or_false, false_or]
  · rw [write32_cmd4 _ _ _ _ _ h]
    simp only [completesSequence, nextStatus, nextIntent, h,
      EZ_RUMBLE_NONE, EZ_RUMBLE_START_CMD_1, EZ_RUMBLE_START_CMD_2,
      EZ_RUMBLE_START_CMD_3, EZ_RUMBLE_START_CMD_4, EZ_RUMBLE_DATA_5, EZ_RUMBLE_DATA_5_3IN1,
      EZ_RUMBLE_END_CMD_6, Nat.reduceEqDiff, false_and, true_and, or_false, false_or,
      reduceIte, OfNat.zero_ne_ofNat, OfNat.ofNat_ne_zero, or_self]
    by_cases ha : address = 0x09E20000
    · by_cases v1 : value % 0x100 = 0xF1
      · simp only [*, Nat.reduceEqDiff, false_and, true_and, and_self, and_true, and_false, reduceIte, not_false_eq_true, or_self, or_true, true_or, or_false, false_or]
      · by_cases v2 : value % 0x100 = 7
        · simp only [*, Nat.reduceEqDiff, false_and, true_and, and_self, and_true, and_false, reduceIte, not_false_eq_true, or_self, or_true, true_or, or_false, false_or]
        · by_cases v3 : value % 0x100 = 8
          · simp only [*, Nat.reduceEqDiff, false_and, true_and, and_self, and_true, and_false, reduceIte, not_false_eq_true, or_self, or_true, true_or, or_false, false_or]
          · simp only [*, Nat.reduceEqDiff, false_and, true_and, and_self, and_true, and_false, reduceIte, not_false_eq_true, or_self, or_true, true_or, or_false, false_or]
    · simp only [*, Nat.reduceEqDiff, false_and, true_and, and_self, and_true, and_false, reduceIte, not_false_eq_true, or_self, or_true, true_or, or_false, false_or]
  · rw [write32_data5 _ _ _ _ _ h]
    simp only [completesSequence, nextStatus, nextIntent, h,
      EZ_RUMBLE_NONE, EZ_RUMBLE_START_CMD_1, EZ_RUMBLE_START_CMD_2,
      EZ_RUMBLE_START_CMD_3, EZ_RUMBLE_START_CMD_4, EZ_RUMBLE_DATA_5, EZ_RUMBLE_DATA_5_3IN1,
      EZ_RUMBLE_END_CMD_6, Nat.reduceEqDiff, false_and, true_and, or_false, false_or,
      reduceIte, OfNat.zero_ne_ofNat, OfNat.ofNat_ne_zero, or_self]
    by_cases c1 : address = 0x09FC0000 ∧ value % 0x10000 = 0x1500
    · simp only [*, Nat.reduceEqDiff, false_and, true_and, and_self, and_true, and_false, reduceIte, not_false_eq_true, or_self, or_true, true_or, or_false, false_or]
    · simp only [*, Nat.reduceEqDiff, false_and, true_and, and_self, and_true, and_false, reduceIte, not_false_eq_true, or_self, or_true, true_or, or_false, false_or]
  · rw [write32_data5_3in1 _ _ _ _ _ h]
    simp only [completesSequence, nextStatus, nextIntent, h,
      EZ_RUMBLE_NONE, EZ_RUMBLE_START_CMD_1, EZ_RUMBLE_START_CMD_2,
      EZ_RUMBLE_START_CMD_3, EZ_RUMBLE_START_CMD_4, EZ_RUMBLE_DATA_5, EZ_RUMBLE_DATA_5_3IN1,
      EZ_RUMBLE_END_CMD_6, Nat.reduceEqDiff, false_and, true_and, or_false, false_or,
      reduceIte, OfNat.zero_ne_ofNat, OfNat.ofNat_ne_zero, or_self]
    have h6 : hw.rumbleStatus = 6 := h
    by_cases c1 : address = 0x09FC0000 ∧ value % 0x10000 = 0x1500
    · simp only [c1, and_self, reduceIte]
      rw [← h6]
    · simp only [c1, reduceIte]
  · rw [write32_end6 _ _ _ _ _ h]
    simp only [completesSequence, nextStatus, nextIntent, h,
      EZ_RUMBLE_NONE, EZ_RUMBLE_START_CMD_1, EZ_RUMBLE_START_CMD_2,
      EZ_RUMBLE_START_CMD_3, EZ_RUMBLE_START_CMD_4, EZ_RUMBLE_DATA_5, EZ_RUMBLE_DATA_5_3IN1,
      EZ_RUMBLE_END_CMD_6, Nat.reduceEqDiff, false_and, true_and, or_false, false_or,
      reduceIte, OfNat.zero_ne_ofNat, OfNat.ofNat_ne_zero, or_self]
    by_cases ha : address = 0x08001000
    · simp only [ha, reduceIte]
    · simp only [ha, reduceIte]
  · rw [write32_default _ _ _ _ _ h]
    have h0 : hw.rumbleStatus ≠ 0 := by omega
    have h1 : hw.rumbleStatus ≠ 1 := by omega
    have h2 : hw.rumbleStatus ≠ 2 := by omega
    have h3 : hw.rumbleStatus ≠ 3 := by omega
    have h4 : hw.rumbleStatus ≠ 4 := by omega
    have h5 : hw.rumbleStatus ≠ 5 := by omega
    have h6 : hw.rumbleStatus ≠ 6 := by omega
    have h7 : hw.rumbleStatus ≠ 7 := by omega
    simp only [completesSequence, nextStatus, nextIntent, h0, h1, h2, h3, h4, h5, h6, h7,
      EZ_RUMBLE_NONE, EZ_RUMBLE_START_CMD_1, EZ_RUMBLE_START_CMD_2,
      EZ_RUMBLE_START_CMD_3, EZ_RUMBLE_START_CMD_4, EZ_RUMBLE_DATA_5, EZ_RUMBLE_DATA_5_3IN1,
      EZ_RUMBLE_END_CMD_6, false_and, or_self, reduceIte]

/-- The function `_commitRumble` with a non-null `gpio`, in one equation. -/
theorem commitRumble_eq (hw : ChisCartridgeHardware) (g : GBACartridgeHardware)
    (ts : Nat) (currentTime : Int) (hg : hw.gpio = some g) :
    _commitRumble hw ts currentTime =
      some { hw with
        commits := hw.commits + 1
        lastOffTS :=
          if hw.rumbleWaitCommit = 1 then 0
          else if hw.rumbleWaitCommit = 0 then (ts + RUMBLE_DELAY_MS) % 2 ^ 64
          else hw.lastOffTS
        rumble := if hw.rumbleWaitCommit = 1 then 1 else hw.rumble
        calls := hw.calls ++
          (if g.rumble = true ∧ (hw.rumbleWaitCommit = 1 ∨ hw.rumbleWaitCommit = 0) then
            [(true, wrapInt32 (currentTime - g.lastRumble))] else [])
        gpio := some
          (if g.rumble = true ∧ (hw.rumbleWaitCommit = 1 ∨ hw.rumbleWaitCommit = 0) then
            { g with lastRumble := currentTime } else g) } := by
  by_cases h1 : hw.rumbleWaitCommit = 1
  · rw [commitRumble_on_eq hw g ts currentTime hg h1]
    simp only [h1, reduceIte, true_or, and_true]
  · by_cases h0 : hw.rumbleWaitCommit = 0
    · rw [commitRumble_off_eq hw g ts currentTime hg h0]
      simp only [h0, zero_ne_one, reduceIte, or_true, and_true]
    · unfold _commitRumble
      simp only [h1, h0, reduceIte, or_self, and_false, List.append_nil, hg]

/-- The scheduler pass with a non-null `gpio`, in one equation. -/
theorem rumbleOff_iteration_eq (hw : ChisCartridgeHardware) (g : GBACartridgeHardware)
    (ts : Nat) (currentTime : Int) (hg : hw.gpio = some g) :
    _rumbleOff_iteration hw ts currentTime =
      some (if hw.rumbleWaitCommit = 0 ∧ hw.rumble = 1 ∧ hw.lastOffTS ≠ 0 ∧ hw.lastOffTS < ts then
        { hw with
          calls := hw.calls ++
            (if g.rumble = true then [(false, wrapInt32 (currentTime - g.lastRumble))] else [])
          gpio := some (if g.rumble = true then { g with lastRumble := currentTime } else g)
          rumble := 0
          lastOffTS := 0 }
        else hw) := by
  by_cases hd : hw.rumbleWaitCommit = 0 ∧ hw.rumble = 1 ∧ hw.lastOffTS ≠ 0 ∧ hw.lastOffTS < ts
  · rw [if_pos hd]
    by_cases hr : g.rumble = true
    · rw [rumbleOff_iteration_of_due hw g ts currentTime hg hr hd]
      simp only [hr, reduceIte]
    · have hf : g.rumble = false := by simpa using hr
      unfold _rumbleOff_iteration
      rw [if_pos hd, setRumble_absent hw g false currentTime hg hf]
      simp only [hf, Bool.false_eq_true, reduceIte, List.append_nil, Option.map_some', hg]
  · rw [if_neg hd]
    exact rumbleOff_iteration_of_not_due hw ts currentTime hd

/-! ## Two runs that differ in the actuator -/

/-- Whether a write completes a sequence depends on `rumbleStatus` alone. -/
theorem completesSequence_congr (hw1 hw2 : ChisCartridgeHardware) (address value : Nat)
    (hs : hw1.rumbleStatus = hw2.rumbleStatus) :
    completesSequence hw1 address value ↔ completesSequence hw2 address value := by
  unfold completesSequence
  rw [hs]

/-- One event run on two records that agree on `rumbleStatus`, `rumble`,
`rumbleWaitCommit` and `lastOffTS`, both with a non-null `gpio`, the second
without an actuator: both return, the results agree on the four fields again,
and the second has made no actuator call and still has no actuator. -/
theorem step_core (hw1 hw2 : ChisCartridgeHardware) (g1 g2 : GBACartridgeHardware) (e : Event)
    (hs : hw1.rumbleStatus = hw2.rumbleStatus) (hr : hw1.rumble = hw2.rumble)
    (hc : hw1.rumbleWaitCommit = hw2.rumbleWaitCommit) (hl : hw1.lastOffTS = hw2.lastOffTS)
    (hg1 : hw1.gpio = some g1) (hg2 : hw2.gpio = some g2) (habs : g2.rumble = false) :
    ∃ h1 h2 k1 k2, step hw1 e = some h1 ∧ step hw2 e = some h2 ∧
      h1.rumbleStatus = h2.rumbleStatus ∧ h1.rumble = h2.rumble ∧
      h1.rumbleWaitCommit = h2.rumbleWaitCommit ∧ h1.lastOffTS = h2.lastOffTS ∧
      h1.gpio = some k1 ∧ h2.gpio = some k2 ∧ k2.rumble = false ∧ h2.calls = hw2.calls := by
  cases e with
  | write w =>
    simp only [step, deliver]
    rw [write32_eq hw1, write32_eq hw2]
    by_cases hcomp : completesSequence hw2 w.address w.value
    · have c1 := commitRumble_eq
        { hw1 with rumbleWaitCommit :=
            nextIntent hw1.rumbleStatus hw1.rumbleWaitCommit w.address w.value }
        g1 w.ts w.currentTime hg1
      have c2 := commitRumble_eq
        { hw2 with rumbleWaitCommit :=
            nextIntent hw2.rumbleStatus hw2.rumbleWaitCommit w.address w.value }
        g2 w.ts w.currentTime hg2
      rw [if_pos ((completesSequence_congr hw1 hw2 _ _ hs).2 hcomp), if_pos hcomp, c1, c2]
      refine ⟨_, _, _, _, rfl, rfl, rfl, ?_, ?_, ?_, rfl, rfl, ?_, ?_⟩
      · simp only [hs, hr, hc]
      · simp only [hs, hc]
      · simp only [hs, hc, hl]
      · simp only [habs, Bool.false_eq_true, false_and, reduceIte]
      · simp only [habs, Bool.false_eq_true, false_and, reduceIte, List.append_nil]
    · rw [if_neg (fun h => hcomp ((completesSequence_congr hw1 hw2 _ _ hs).1 h)), if_neg hcomp]
      refine ⟨_, _, g1, g2, rfl, rfl, ?_, hr, ?_, hl, hg1, hg2, habs, rfl⟩
      · simp only [hs]
      · simp only [hs, hc]
  | tick ts currentTime =>
    simp only [step]
    rw [rumbleOff_iteration_eq hw1 g1 ts currentTime hg1,
      rumbleOff_iteration_eq hw2 g2 ts currentTime hg2]
    by_cases hd : hw2.rumbleWaitCommit = 0 ∧ hw2.rumble = 1 ∧ hw2.lastOffTS ≠ 0 ∧ hw2.lastOffTS < ts
    · have hd1 : hw1.rumbleWaitCommit = 0 ∧ hw1.rumble = 1 ∧ hw1.lastOffTS ≠ 0 ∧
          hw1.lastOffTS < ts := by rw [hc, hr, hl]; exact hd
      rw [if_pos hd1, if_pos hd]
      refine ⟨_, _, _, _, rfl, rfl, hs, rfl, hc, rfl, rfl, rfl, ?_, ?_⟩
      · simp only [habs, Bool.false_eq_true, reduceIte]
      · simp only [habs, Bool.false_eq_true, reduceIte, List.append_nil]
    · have hd1 : ¬ (hw1.rumbleWaitCommit = 0 ∧ hw1.rumble = 1 ∧ hw1.lastOffTS ≠ 0 ∧
          hw1.lastOffTS < ts) := by rw [hc, hr, hl]; exact hd
      rw [if_neg hd1, if_neg hd]
      exact ⟨_, _, g1, g2, rfl, rfl, hs, hr, hc, hl, hg1, hg2, habs, rfl⟩

/-- The statement of `step_core` for a list of events. -/
theorem run_core (es : List Event) (hw1 hw2 : ChisCartridgeHardware)
    (g1 g2 : GBACartridgeHardware)
    (hs : hw1.rumbleStatus = hw2.rumbleStatus) (hr : hw1.rumble = hw2.rumble)
    (hc : hw1.rumbleWaitCommit = hw2.rumbleWaitCommit) (hl : hw1.lastOffTS = hw2.lastOffTS)
    (hg1 : hw1.gpio = some g1) (hg2 : hw2.gpio = some g2) (habs : g2.rumble = false) :
    ∃ h1 h2, run hw1 es = some h1 ∧ run hw2 es = some h2 ∧
      h1.rumbleStatus = h2.rumbleStatus ∧ h1.rumble = h2.rumble ∧
      h1.rumbleWaitCommit = h2.rumbleWaitCommit ∧ h1.lastOffTS = h2.lastOffTS ∧
      h2.calls = hw2.calls := by
  induction es generalizing hw1 hw2 g1 g2 with
  | nil => exact ⟨hw1, hw2, rfl, rfl, hs, hr, hc, hl, rfl⟩
  | cons e es ih =>
    obtain ⟨h1, h2, k1, k2, e1, e2, a, b, c, d, f1, f2, fabs, fcalls⟩ :=
      step_core hw1 hw2 g1 g2 e hs hr hc hl hg1 hg2 habs
    obtain ⟨r1, r2, q1, q2, a2, b2, c2, d2, rcalls⟩ := ih h1 h2 k1 k2 a b c d f1 f2 fabs
    refine ⟨r1, r2, ?_, ?_, a2, b2, c2, d2, rcalls.trans fcalls⟩
    · rw [run, e1, Option.some_bind]
      exact q1
    · rw [run, e2, Option.some_bind]
      exact q2

/-! ## The scheduler pass and `rumbleStatus` -/

/-- The scheduler pass does not read `rumbleStatus` and carries it along. -/
theorem rumbleOff_iteration_status (hw : ChisCartridgeHardware) (st ts : Nat)
    (currentTime : Int) :
    _rumbleOff_iteration { hw with rumbleStatus := st } ts currentTime =
      (_rumbleOff_iteration hw ts currentTime).map fun h => { h with rumbleStatus := st } := by
  obtain ⟨status, rumble, intent, deadline, stop, gp, calls, commits⟩ := hw
  unfold _rumbleOff_iteration _setRumble
  dsimp only
  by_cases hd : intent = 0 ∧ rumble = 1 ∧ deadline ≠ 0 ∧ deadline < ts
  · rw [if_pos hd, if_pos hd]
    cases gp with
    | none => rfl
    | some g =>
      dsimp only
      by_cases hr : g.rumble = false
      · rw [if_pos hr, if_pos hr]
        rfl
      · rw [if_neg hr, if_neg hr]
        rfl
  · rw [if_neg hd, if_neg hd]
    rfl

/-! ## The loop of `_rumbleOff` -/

/-- With the motor flag not on, the loop of `_rumbleOff` changes nothing,
however many passes it makes. -/
theorem rumbleOff_loop_of_motor_not_on (readings : List (Nat × Int))
    (hw : ChisCartridgeHardware) (hoff : hw.rumble ≠ 1) :
    ∃ sleeps, _rumbleOff hw readings = some (hw, sleeps) := by
  induction readings with
  | nil => exact ⟨[], rfl⟩
  | cons r rest ih =>
    obtain ⟨ts, currentTime⟩ := r
    obtain ⟨sleeps, hrest⟩ := ih
    unfold _rumbleOff
    by_cases hstop : hw.stopThread = true
    · exact ⟨[], by rw [if_pos hstop]⟩
    · rw [if_neg hstop, rumbleOff_iteration_of_not_due hw ts currentTime (fun hd => hoff hd.2.1)]
      exact ⟨_rumbleOff_sleep hw ts :: sleeps, by simp only [hrest, Option.map_some']⟩

/-- With a non-null `gpio`, the loop of `_rumbleOff` returns and, over all its
passes, adds at most one actuator call, and that one with `enable = false`. -/
theorem rumbleOff_loop_fires_at_most_once (readings : List (Nat × Int))
    (hw : ChisCartridgeHardware) (g : GBACartridgeHardware) (hg : hw.gpio = some g) :
    ∃ h sleeps added, _rumbleOff hw readings = some (h, sleeps) ∧
      h.calls = hw.calls ++ added ∧ added.length ≤ 1 ∧ ∀ c ∈ added, c.1 = false := by
  induction readings generalizing hw g with
  | nil => exact ⟨hw, [], [], rfl, by simp, by simp, by simp⟩
  | cons r rest ih =>
    obtain ⟨ts, currentTime⟩ := r
    unfold _rumbleOff
    by_cases hstop : hw.stopThread = true
    · exact ⟨hw, [], [], by rw [if_pos hstop], by simp, by simp, by simp⟩
    · rw [if_neg hstop]
      by_cases hd : hw.rumbleWaitCommit = 0 ∧ hw.rumble = 1 ∧ hw.lastOffTS ≠ 0 ∧ hw.lastOffTS < ts
      · rw [rumbleOff_iteration_eq hw g ts currentTime hg, if_pos hd]
        dsimp only
        obtain ⟨sleeps, hrest⟩ := rumbleOff_loop_of_motor_not_on rest
          { hw with
            calls := hw.calls ++
              (if g.rumble = true then [(false, wrapInt32 (currentTime - g.lastRumble))] else [])
            gpio := some (if g.rumble = true then { g with lastRumble := currentTime } else g)
            rumble := 0
            lastOffTS := 0 } (fun h01 => absurd (show (0 : Int) = 1 from h01) (by decide))
        rw [hrest]
        refine ⟨_, _, _, rfl, rfl, ?_, ?_⟩
        · split_ifs <;> simp
        · intro c hc
          split_ifs at hc
          · simp only [List.mem_singleton] at hc
            rw [hc]
          · simp at hc
      · rw [rumbleOff_iteration_of_not_due hw ts currentTime hd]
        dsimp only
        obtain ⟨h, sleeps, added, hrest, hcalls, hlen, hall⟩ := ih hw g hg
        rw [hrest]
        exact ⟨h, _, added, rfl, hcalls, hlen, hall⟩

/-! ## The elapsed argument -/

/-- With an actuator attached, an event either makes no actuator call and
leaves `gpio` alone, or makes exactly one call, whose `elapsed` argument is the
32-bit difference between the timing value of the event and `lastRumble`, and
stores that timing value in `lastRumble`. -/
theorem step_calls (hw : ChisCartridgeHardware) (g : GBACartridgeHardware) (e : Event)
    (hg : hw.gpio = some g) (hr : g.rumble = true) :
    ∃ h, step hw e = some h ∧
      ((h.calls = hw.calls ∧ h.gpio = some g) ∨
       (∃ enable, h.calls = hw.calls ++ [(enable, wrapInt32 (eventTime e - g.lastRumble))] ∧
          h.gpio = some { g with lastRumble := eventTime e })) := by
  cases e with
  | write w =>
    simp only [step, deliver, eventTime]
    rw [write32_eq hw]
    by_cases hcomp : completesSequence hw w.address w.value
    · have hc := commitRumble_eq
        { hw with rumbleWaitCommit :=
            nextIntent hw.rumbleStatus hw.rumbleWaitCommit w.address w.value }
        g w.ts w.currentTime hg
      rw [if_pos hcomp, hc]
      refine ⟨_, rfl, ?_⟩
      dsimp only
      by_cases hi : nextIntent hw.rumbleStatus hw.rumbleWaitCommit w.address w.value = 1 ∨
          nextIntent hw.rumbleStatus hw.rumbleWaitCommit w.address w.value = 0
      · right
        exact ⟨true, by simp only [hr, hi, and_self, reduceIte],
          by simp only [hr, hi, and_self, reduceIte]⟩
      · left
        exact ⟨by simp only [hi, and_false, reduceIte, List.append_nil],
          by simp only [hi, and_false, reduceIte]⟩
    · rw [if_neg hcomp]
      exact ⟨_, rfl, Or.inl ⟨rfl, hg⟩⟩
  | tick ts currentTime =>
    simp only [step, eventTime]
    rw [rumbleOff_iteration_eq hw g ts currentTime hg]
    by_cases hd : hw.rumbleWaitCommit = 0 ∧ hw.rumble = 1 ∧ hw.lastOffTS ≠ 0 ∧ hw.lastOffTS < ts
    · rw [if_pos hd]
      refine ⟨_, rfl, Or.inr ⟨false, ?_, ?_⟩⟩
      · simp only [hr, reduceIte]
      · simp only [hr, reduceIte]
    · rw [if_neg hd]
      exact ⟨_, rfl, Or.inl ⟨rfl, hg⟩⟩

/-- Over a run with an actuator attached, the `elapsed` arguments of the calls
added form the chain of differences of the timing values at which the calls
were made, starting from `lastRumble`. -/
theorem run_calls (es : List Event) (hw : ChisCartridgeHardware) (g : GBACartridgeHardware)
    (hg : hw.gpio = some g) (hr : g.rumble = true) :
    ∃ h times, run hw es = some h ∧ times.Sublist (es.map eventTime) ∧
      h.calls.map Prod.snd = hw.calls.map Prod.snd ++ elapsedChain g.lastRumble times ∧
      h.calls.length = hw.calls.length + times.length := by
  induction es generalizing hw g with
  | nil => exact ⟨hw, [], rfl, List.Sublist.slnil, by simp [elapsedChain], by simp⟩
  | cons e es ih =>
    obtain ⟨h1, he, hcase⟩ := step_calls hw g e hg hr
    rcases hcase with ⟨hcalls, hgp⟩ | ⟨enable, hcalls, hgp⟩
    · obtain ⟨h2, times, hrun, hsub, hel, hlen⟩ := ih h1 g hgp hr
      refine ⟨h2, times, ?_, ?_, ?_, ?_⟩
      · rw [run, he, Option.some_bind]
        exact hrun
      · rw [List.map_cons]
        exact List.Sublist.cons _ hsub
      · rw [hel, hcalls]
      · rw [hlen, hcalls]
    · obtain ⟨h2, times, hrun, hsub, hel, hlen⟩ :=
        ih h1 { g with lastRumble := eventTime e } hgp hr
      refine ⟨h2, eventTime e :: times, ?_, ?_, ?_, ?_⟩
      · rw [run, he, Option.some_bind]
        exact hrun
      · rw [List.map_cons]
        exact List.Sublist.cons₂ _ hsub
      · rw [hel, hcalls]
        simp [elapsedChain]
      · rw [hlen, hcalls]
        simp only [List.length_append, List.length_cons, List.length_nil]
        omega

/-! ## States reachable from `ChisCartridgeHardwareInit` -/

/-- The state a write stores is never `EZ_RUMBLE_DATA_5_3IN1` and never
`EZ_RUMBLE_DATA_7` or beyond. -/
theorem nextStatus_range (status address value : Nat) :
    nextStatus status address value ≠ EZ_RUMBLE_DATA_5_3IN1 ∧
    nextStatus status address value < EZ_RUMBLE_DATA_7 := by
  unfold nextStatus
  split_ifs <;> decide

/-- A write delivered with a non-null `gpio` returns, keeps `gpio` non-null
and leaves a state that is neither `EZ_RUMBLE_DATA_5_3IN1` nor
`EZ_RUMBLE_DATA_7` nor outside the enumeration. -/
theorem write32_status_range (hw : ChisCartridgeHardware) (g : GBACartridgeHardware)
    (address value ts : Nat) (currentTime : Int) (hg : hw.gpio = some g) :
    ∃ h k, ChisCartridgeHardwareWrite32 hw address value ts currentTime = some h ∧
      h.gpio = some k ∧ h.rumbleStatus ≠ EZ_RUMBLE_DATA_5_3IN1 ∧
      h.rumbleStatus < EZ_RUMBLE_DATA_7 := by
  rw [write32_eq hw]
  by_cases hcomp : completesSequence hw address value
  · have hc := commitRumble_eq
      { hw with rumbleWaitCommit := nextIntent hw.rumbleStatus hw.rumbleWaitCommit address value }
      g ts currentTime hg
    rw [if_pos hcomp, hc]
    refine ⟨_, _, rfl, rfl, ?_, ?_⟩
    · show EZ_RUMBLE_NONE ≠ EZ_RUMBLE_DATA_5_3IN1
      decide
    · show EZ_RUMBLE_NONE < EZ_RUMBLE_DATA_7
      decide
  · rw [if_neg hcomp]
    exact ⟨_, g, rfl, hg, (nextStatus_range _ _ _).1, (nextStatus_range _ _ _).2⟩

/-- Every list of writes delivered from a state with a non-null `gpio` that is
neither `EZ_RUMBLE_DATA_5_3IN1` nor `EZ_RUMBLE_DATA_7` nor outside the
enumeration returns, and ends in such a state. -/
theorem deliverAll_status_range (ws : List BusWrite) (hw : ChisCartridgeHardware)
    (g : GBACartridgeHardware) (hg : hw.gpio = some g)
    (h6 : hw.rumbleStatus ≠ EZ_RUMBLE_DATA_5_3IN1) (h8 : hw.rumbleStatus < EZ_RUMBLE_DATA_7) :
    ∃ s k, deliverAll hw ws = some s ∧ s.gpio = some k ∧
      s.rumbleStatus ≠ EZ_RUMBLE_DATA_5_3IN1 ∧ s.rumbleStatus < EZ_RUMBLE_DATA_7 := by
  induction ws generalizing hw g with
  | nil => exact ⟨hw, g, rfl, hg, h6, h8⟩
  | cons w ws ih =>
    obtain ⟨h1, k1, he, hk, a, b⟩ :=
      write32_status_range hw g w.address w.value w.ts w.currentTime hg
    obtain ⟨s, k, hs, hgs, c, d⟩ := ih h1 k1 hk a b
    refine ⟨s, k, ?_, hgs, c, d⟩
    rw [deliverAll, deliver, he, Option.some_bind]
    exact hs

/-- In a state other than `EZ_RUMBLE_DATA_5_3IN1`, a write that completes a
sequence commits with an intent decided by that write alone: 1 when the state
is `EZ_RUMBLE_END_CMD_6` and the low byte is 2, and 0 otherwise. -/
theorem completing_intent (hw : ChisCartridgeHardware) (address value : Nat)
    (h6 : hw.rumbleStatus ≠ EZ_RUMBLE_DATA_5_3IN1)
    (hcomp : completesSequence hw address value) :
    nextIntent hw.rumbleStatus hw.rumbleWaitCommit address value =
      if hw.rumbleStatus = EZ_RUMBLE_END_CMD_6 ∧ value % 0x100 = 2 then 1 else 0 := by
  rcases hcomp with ⟨hs, ha, hv⟩ | ⟨hs, ha⟩ | ⟨hs, _, _⟩
  · unfold nextIntent
    simp only [hs, ha, hv, EZ_RUMBLE_NONE, EZ_RUMBLE_START_CMD_4, EZ_RUMBLE_END_CMD_6,
      Nat.reduceEqDiff, false_and, true_and, and_self, reduceIte, OfNat.zero_ne_ofNat]
  · unfold nextIntent
    simp only [hs, ha, EZ_RUMBLE_NONE, EZ_RUMBLE_START_CMD_4, EZ_RUMBLE_END_CMD_6,
      Nat.reduceEqDiff, false_and, true_and, and_self, reduceIte, OfNat.ofNat_ne_zero]
  · exact absurd hs h6

/-! ## The lock discipline -/

/-- A list of accesses with a read right after a `MutexUnlock` is not under
the lock. -/
theorem underLock_unlock_read (xs ys : List Access) (f : SharedField) (held : Bool) :
    underLock held (xs ++ Access.unlock :: Access.read f :: ys) = false := by
  induction xs generalizing held with
  | nil => simp [underLock]
  | cons x xs ih =>
    cases x with
    | lock => simpa [underLock] using ih true
    | unlock => simpa [underLock] using ih false
    | read g => simp [underLock, ih held]
    | write g => simp [underLock, ih held]

/-! ## Claims -/

/-- C1: from any idle state (whatever `rumble`, `rumbleWaitCommit` and
`lastOffTS` hold), with an actuator attached, the ezode sequence ending with
the value 2 at 0x08001000 commits "immediate on": over the whole sequence the
actuator is called exactly once, with `enable = true`, and afterwards
`rumble = 1`, `lastOffTS = 0` and `rumbleStatus` is idle again. -/
theorem ezode_on_commits_immediate_on (hw : ChisCartridgeHardware)
    (g : GBACartridgeHardware) (clock : Nat → Nat × Int)
    (hidle : hw.rumbleStatus = EZ_RUMBLE_NONE) (hg : hw.gpio = some g)
    (hr : g.rumble = true) :
    ∃ h, deliverAll hw (ezodeSequence 2 clock) = some h ∧
      h.calls = hw.calls ++ [(true, wrapInt32 ((clock 6).2 - g.lastRumble))] ∧
      h.commits = hw.commits + 1 ∧
      h.rumble = 1 ∧ h.lastOffTS = 0 ∧ h.rumbleStatus = EZ_RUMBLE_NONE := by
  rw [ezodeSequence_last hw 2 clock hidle, write32_end6 _ _ _ _ _ rfl]
  simp only [reduceIte, Nat.reduceMod]
  rw [commitRumble_on _ g _ _ ?_ hr ?_]
  · exact ⟨_, rfl, rfl, rfl, rfl, rfl, rfl⟩
  · exact hg
  · rfl

/-- Witness of C1 on the freshly initialised state. -/
theorem ezode_on_commits_immediate_on_witness :
    ∃ h, deliverAll freshHardware (ezodeSequence 2 steadyClock) = some h ∧
      h.calls = freshHardware.calls ++
        [(true, wrapInt32 ((steadyClock 6).2 - gpioWithActuator.lastRumble))] ∧
      h.commits = freshHardware.commits + 1 ∧
      h.rumble = 1 ∧ h.lastOffTS = 0 ∧ h.rumbleStatus = EZ_RUMBLE_NONE :=
  ezode_on_commits_immediate_on freshHardware gpioWithActuator steadyClock rfl rfl rfl

/-- C2: from any idle state, with an actuator attached, the ezode sequence
ending with the value 0 at 0x08001000 commits "delayed off": the actuator is
called exactly once, with `enable = true`, `lastOffTS` becomes `t + 200` as the
`uint64_t` sum computes it (so exactly `t + 200` when that is below 2^64),
where `t` is the clock value read by the commit, `rumble` keeps its value and
`rumbleStatus` is idle again. -/
theorem ezode_off_commits_delayed_off (hw : ChisCartridgeHardware)
    (g : GBACartridgeHardware) (clock : Nat → Nat × Int)
    (hidle : hw.rumbleStatus = EZ_RUMBLE_NONE) (hg : hw.gpio = some g)
    (hr : g.rumble = true) :
    ∃ h, deliverAll hw (ezodeSequence 0 clock) = some h ∧
      h.calls = hw.calls ++ [(true, wrapInt32 ((clock 6).2 - g.lastRumble))] ∧
      h.commits = hw.commits + 1 ∧
      h.lastOffTS = ((clock 6).1 + 200) % 2 ^ 64 ∧
      ((clock 6).1 + 200 < 2 ^ 64 → h.lastOffTS = (clock 6).1 + 200) ∧
      h.rumble = hw.rumble ∧ h.rumbleStatus = EZ_RUMBLE_NONE := by
  rw [ezodeSequence_last hw 0 clock hidle, write32_end6 _ _ _ _ _ rfl]
  simp only [reduceIte, Nat.reduceMod, Nat.reduceEqDiff, OfNat.zero_ne_ofNat]
  rw [commitRumble_off _ g _ _ ?_ hr ?_]
  · exact ⟨_, rfl, rfl, rfl, rfl, fun hlt => Nat.mod_eq_of_lt hlt, rfl, rfl⟩
  · exact hg
  · rfl

/-- Witness of C2 on the freshly initialised state. -/
theorem ezode_off_commits_delayed_off_witness :
    ∃ h, deliverAll freshHardware (ezodeSequence 0 steadyClock) = some h ∧
      h.calls = freshHardware.calls ++
        [(true, wrapInt32 ((steadyClock 6).2 - gpioWithActuator.lastRumble))] ∧
      h.commits = freshHardware.commits + 1 ∧
      h.lastOffTS = ((steadyClock 6).1 + 200) % 2 ^ 64 ∧
      ((steadyClock 6).1 + 200 < 2 ^ 64 → h.lastOffTS = (steadyClock 6).1 + 200) ∧
      h.rumble = freshHardware.rumble ∧ h.rumbleStatus = EZ_RUMBLE_NONE :=
  ezode_off_commits_delayed_off freshHardware gpioWithActuator steadyClock rfl rfl rfl

/-- C3, the code at the failing input: on the state set up by
`ChisCartridgeHardwareInit`, the ezode sequence ending with 0 at 0x08001000,
read at clock time 1000, is the first commit; it calls the actuator with
`enable = true` and sets the deadline 1200, but leaves the motor flag at -1, so
that every later scheduler pass, at whatever clock time, changes nothing: the
actuator is never called with `enable = false`. -/
theorem delayed_off_after_init_never_fires :
    deliverAll freshHardware (ezodeSequence 0 steadyClock) =
      some ⟨EZ_RUMBLE_NONE, -1, 0, 1200, false, some ⟨true, 50⟩, [(true, 50)], 1⟩ ∧
    (∀ ts currentTime,
      _rumbleOff_iteration
        ⟨EZ_RUMBLE_NONE, -1, 0, 1200, false, some ⟨true, 50⟩, [(true, 50)], 1⟩ ts currentTime =
      some ⟨EZ_RUMBLE_NONE, -1, 0, 1200, false, some ⟨true, 50⟩, [(true, 50)], 1⟩) ∧
    _rumbleOff ⟨EZ_RUMBLE_NONE, -1, 0, 1200, false, some ⟨true, 50⟩, [(true, 50)], 1⟩
        [(1201, 60), (1211, 70), (1221, 80)] =
      some (⟨EZ_RUMBLE_NONE, -1, 0, 1200, false, some ⟨true, 50⟩, [(true, 50)], 1⟩,
        [10000, 10000, 10000]) := by
  refine ⟨?_, ?_, ?_⟩
  · rw [ezodeSequence_last freshHardware 0 steadyClock rfl, write32_end6 _ _ _ _ _ rfl]
    simp only [reduceIte, Nat.reduceMod, Nat.reduceEqDiff, OfNat.zero_ne_ofNat]
    rw [commitRumble_off _ gpioWithActuator _ _ rfl rfl rfl]
    decide
  · intro ts currentTime
    exact rumbleOff_iteration_of_not_due _ ts currentTime
      (fun hd => absurd hd.2.1 (by decide))
  · decide

/-- C4: in every state with a delayed turn-off pending (and a non-null
`gpio`), a commit of intent "immediate on" clears the deadline, and from the
state it leaves every run of scheduler passes (at any clock times) and writes
returns, and as long as no write of the run has committed, the deadline is
still cleared, the motor flag is still on and no actuator call has been added:
no stale turn-off is fired. -/
theorem immediate_on_cancels_pending_off (hw : ChisCartridgeHardware)
    (g : GBACartridgeHardware) (ts : Nat) (currentTime : Int)
    (hg : hw.gpio = some g) (_hpending : hw.lastOffTS ≠ 0)
    (hon : hw.rumbleWaitCommit = 1) :
    ∃ h1, _commitRumble hw ts currentTime = some h1 ∧ h1.lastOffTS = 0 ∧ h1.rumble = 1 ∧
      ∀ es : List Event, ∃ h2, run h1 es = some h2 ∧
        (h2.commits = h1.commits →
          h2.lastOffTS = 0 ∧ h2.rumble = 1 ∧ h2.calls = h1.calls) := by
  obtain ⟨h1, g1, he, hg1⟩ := commitRumble_total hw g ts currentTime hg
  have hfields : h1.lastOffTS = 0 ∧ h1.rumble = 1 := by
    have he1 := he
    unfold _commitRumble at he1
    simp only [hon, reduceIte] at he1
    obtain ⟨h0, he0, rfl⟩ := Option.map_eq_some'.mp he1
    exact ⟨(setRumble_frame _ _ _ _ he0).2.2.2.1, rfl⟩
  refine ⟨h1, he, hfields.1, hfields.2, fun es => ?_⟩
  obtain ⟨h2, _, hr, _⟩ := run_total es h1 g1 hg1
  refine ⟨h2, hr, fun hc => ?_⟩
  obtain ⟨a, b, c⟩ := (run_frame es h1 h2 hr).2 hc hfields.1
  exact ⟨a, by rw [b, hfields.2], c⟩

/-- Witness of C4: the commit of "immediate on" on a state with the deadline
1200 pending. -/
theorem immediate_on_cancels_pending_off_witness :
    ∃ h1, _commitRumble pendingOffHardware 1100 50 = some h1 ∧
      h1.lastOffTS = 0 ∧ h1.rumble = 1 ∧
      ∀ es : List Event, ∃ h2, run h1 es = some h2 ∧
        (h2.commits = h1.commits →
          h2.lastOffTS = 0 ∧ h2.rumble = 1 ∧ h2.calls = h1.calls) :=
  immediate_on_cancels_pending_off pendingOffHardware gpioWithActuator 1100 50 rfl
    (by decide) rfl

/-- C5 as stated fails: in the idle state set up by
`ChisCartridgeHardwareInit`, the write of 0x0100 to 0x08001000 matches none of
the three triggers as worded (masked to 16 or to 32 bits the value is not 0),
yet its low byte is 0, so the write commits "delayed off": the actuator is
called and `lastOffTS` goes from 0 to 1200. -/
theorem idle_write_with_zero_low_byte_commits :
    freshHardware.rumbleStatus = EZ_RUMBLE_NONE ∧
    ¬ statedFirstStepTrigger 16 0x08001000 0x0100 ∧
    ¬ statedFirstStepTrigger 32 0x08001000 0x0100 ∧
    freshHardware.lastOffTS = 0 ∧ freshHardware.calls = [] ∧
    ChisCartridgeHardwareWrite32 freshHardware 0x08001000 0x0100 1000 50 =
      some ⟨EZ_RUMBLE_NONE, -1, 0, 1200, false, some ⟨true, 50⟩, [(true, 50)], 1⟩ ∧
    ChisCartridgeHardwareWrite16 freshHardware 0x08001000 0x0100 1000 50 =
      some ⟨EZ_RUMBLE_NONE, -1, 0, 1200, false, some ⟨true, 50⟩, [(true, 50)], 1⟩ := by
  refine ⟨rfl, by decide, by decide, rfl, rfl, ?_, ?_⟩
  · rw [write32_none _ _ _ _ _ rfl]
    simp only [Nat.reduceMod, Nat.reduceEqDiff, false_and, true_and, and_self, reduceIte]
    rw [commitRumble_off _ gpioWithActuator _ _ rfl rfl rfl]
    decide
  · unfold ChisCartridgeHardwareWrite16
    rw [write32_none _ _ _ _ _ rfl]
    simp only [Nat.reduceMod, Nat.reduceEqDiff, false_and, true_and, and_self, reduceIte,
      Nat.reducePow]
    rw [commitRumble_off _ gpioWithActuator _ _ rfl rfl rfl]
    decide

/-- C5, amended: a write delivered in the idle state that matches none of the
three first-step triggers as the code tests them (0xD200 in the low 16 bits at
0x09FE0000; the marker 0x08 in the low byte at 0x09E20000; a low byte 0 at
0x08001000) returns the state it was given: the machine remains idle, `rumble`,
`rumbleWaitCommit` and `lastOffTS` are unchanged and no actuator call is made. -/
theorem idle_write_without_trigger_changes_nothing (hw : ChisCartridgeHardware)
    (address value ts : Nat) (currentTime : Int)
    (hidle : hw.rumbleStatus = EZ_RUMBLE_NONE)
    (hnone : ¬ firstStepTrigger address value) :
    ChisCartridgeHardwareWrite32 hw address value ts currentTime = some hw ∧
    ∃ h, ChisCartridgeHardwareWrite32 hw address value ts currentTime = some h ∧
      h.rumbleStatus = EZ_RUMBLE_NONE ∧ h.rumble = hw.rumble ∧
      h.rumbleWaitCommit = hw.rumbleWaitCommit ∧ h.lastOffTS = hw.lastOffTS ∧
      h.calls = hw.calls ∧ h.commits = hw.commits := by
  have key : ChisCartridgeHardwareWrite32 hw address value ts currentTime = some hw := by
    unfold firstStepTrigger at hnone
    rw [write32_none _ _ _ _ _ hidle]
    have h1 : ¬ (address = 0x09FE0000 ∧ value % 0x10000 = 0xD200) :=
      fun hh => hnone (Or.inl hh)
    have h2 : ¬ (address = 0x09E20000 ∧ value % 0x100 = 0x8) :=
      fun hh => hnone (Or.inr (Or.inl hh))
    have h3 : ¬ (address = 0x08001000 ∧ value % 0x100 = 0) :=
      fun hh => hnone (Or.inr (Or.inr hh))
    simp only [h1, h2, h3, reduceIte]
    rw [← hidle]
  exact ⟨key, hw, key, hidle, rfl, rfl, rfl, rfl, rfl⟩

/-- Witness of the amended C5: the write of 0x0101 to 0x08001000 on the
freshly initialised state. -/
theorem idle_write_without_trigger_changes_nothing_witness :
    ChisCartridgeHardwareWrite32 freshHardware 0x08001000 0x0101 1000 50 =
      some freshHardware ∧
    ∃ h, ChisCartridgeHardwareWrite32 freshHardware 0x08001000 0x0101 1000 50 = some h ∧
      h.rumbleStatus = EZ_RUMBLE_NONE ∧ h.rumble = freshHardware.rumble ∧
      h.rumbleWaitCommit = freshHardware.rumbleWaitCommit ∧
      h.lastOffTS = freshHardware.lastOffTS ∧
      h.calls = freshHardware.calls ∧ h.commits = freshHardware.commits :=
  idle_write_without_trigger_changes_nothing freshHardware 0x08001000 0x0101 1000 50 rfl
    (by decide)

/-- C6: in each state of the confirmation chain (`EZ_RUMBLE_START_CMD_1` to
`EZ_RUMBLE_START_CMD_4`), with a non-null `gpio`, a write that deviates from
what the step accepts resets `rumbleStatus` to idle and changes nothing else
(no commit, no actuator call); the full ezode sequence fed afterwards commits
as it does from the state `ChisCartridgeHardwareInit` sets up on the same
`gpio`: one commit each, the same `rumbleWaitCommit`, `lastOffTS`, actuator
calls and `gpio`, idle at the end, and the motor flag set to 1 in both when the
last byte is 2 and left as it was in both (the value before the deviation,
respectively -1) otherwise. -/
theorem deviation_resets_without_poison (hw : ChisCartridgeHardware)
    (g : GBACartridgeHardware) (address value ts : Nat) (currentTime : Int)
    (hchain : hw.rumbleStatus = EZ_RUMBLE_START_CMD_1 ∨ hw.rumbleStatus = EZ_RUMBLE_START_CMD_2 ∨
      hw.rumbleStatus = EZ_RUMBLE_START_CMD_3 ∨ hw.rumbleStatus = EZ_RUMBLE_START_CMD_4)
    (hdev : ¬ confirmsStep hw address value) (hg : hw.gpio = some g) :
    ChisCartridgeHardwareWrite32 hw address value ts currentTime =
      some { hw with rumbleStatus := EZ_RUMBLE_NONE } ∧
    ∀ (final : Nat) (clock : Nat → Nat × Int), ∃ h hf,
      deliverAll hw (⟨address, value, ts, currentTime⟩ :: ezodeSequence final clock) = some h ∧
      deliverAll (ChisCartridgeHardwareInit hw g) (ezodeSequence final clock) = some hf ∧
      h.commits = hw.commits + 1 ∧ hf.commits = hw.commits + 1 ∧
      h.rumbleStatus = EZ_RUMBLE_NONE ∧ hf.rumbleStatus = EZ_RUMBLE_NONE ∧
      h.rumbleWaitCommit = hf.rumbleWaitCommit ∧ h.lastOffTS = hf.lastOffTS ∧
      h.calls = hf.calls ∧ h.gpio = hf.gpio ∧
      (final % 0x100 = 2 → h.rumble = 1 ∧ hf.rumble = 1) ∧
      (final % 0x100 ≠ 2 → h.rumble = hw.rumble ∧ hf.rumble = -1) := by
  have key : ChisCartridgeHardwareWrite32 hw address value ts currentTime =
      some { hw with rumbleStatus := EZ_RUMBLE_NONE } := by
    unfold confirmsStep at hdev
    rcases hchain with h | h | h | h
    · rw [write32_cmd1 _ _ _ _ _ h]
      have hn : ¬ (address = 0x08000000 ∧ value % 0x10000 = 0x1500) :=
        fun hh => hdev (Or.inl ⟨h, hh⟩)
      simp only [hn, reduceIte]
    · rw [write32_cmd2 _ _ _ _ _ h]
      have hn : ¬ (address = 0x08020000 ∧ value % 0x10000 = 0xD200) :=
        fun hh => hdev (Or.inr (Or.inl ⟨h, hh⟩))
      simp only [hn, reduceIte]
    · rw [write32_cmd3 _ _ _ _ _ h]
      have hn : ¬ (address = 0x08040000 ∧ value % 0x10000 = 0x1500) :=
        fun hh => hdev (Or.inr (Or.inr (Or.inl ⟨h, hh⟩)))
      simp only [hn, reduceIte]
    · rw [write32_cmd4 _ _ _ _ _ h]
      by_cases ha : address = 0x09E20000
      · have h1 : ¬ value % 0x100 = 0xF1 :=
          fun hh => hdev (Or.inr (Or.inr (Or.inr ⟨h, ha, Or.inl hh⟩)))
        have h2 : ¬ value % 0x100 = 7 :=
          fun hh => hdev (Or.inr (Or.inr (Or.inr ⟨h, ha, Or.inr (Or.inl hh)⟩)))
        have h3 : ¬ value % 0x100 = 8 :=
          fun hh => hdev (Or.inr (Or.inr (Or.inr ⟨h, ha, Or.inr (Or.inr hh)⟩)))
        simp only [h1, h2, h3, reduceIte, ite_self]
      · simp only [ha, reduceIte]
  refine ⟨key, fun final clock => ?_⟩
  have e1 := ezodeSequence_eq { hw with rumbleStatus := EZ_RUMBLE_NONE } g final clock rfl hg
  have e2 := ezodeSequence_eq (ChisCartridgeHardwareInit hw g) g final clock rfl rfl
  have d1 : deliverAll hw (⟨address, value, ts, currentTime⟩ :: ezodeSequence final clock) =
      deliverAll { hw with rumbleStatus := EZ_RUMBLE_NONE } (ezodeSequence final clock) := by
    rw [deliverAll, deliver, key, Option.some_bind]
  refine ⟨_, _, d1.trans e1, e2, ?_, ?_, ?_, ?_, ?_, ?_, ?_, ?_, ?_, ?_⟩
  · rfl
  · rfl
  · rfl
  · rfl
  · rfl
  · by_cases h2 : final % 0x100 = 2
    · simp only [h2, reduceIte]
    · simp only [h2, reduceIte]
  · rfl
  · rfl
  · intro h2
    simp only [h2, reduceIte, and_self]
  · intro h2
    simp only [h2, reduceIte]
    exact ⟨trivial, rfl⟩

/-- Witness of C6: in `EZ_RUMBLE_START_CMD_2` the write of 0x1500 to
0x08020000 deviates from the expected 0xD200. -/
theorem deviation_resets_without_poison_witness :
    ChisCartridgeHardwareWrite32 midChainHardware 0x08020000 0x1500 1000 50 =
      some { midChainHardware with rumbleStatus := EZ_RUMBLE_NONE } ∧
    ∀ (final : Nat) (clock : Nat → Nat × Int), ∃ h hf,
      deliverAll midChainHardware
        (⟨0x08020000, 0x1500, 1000, 50⟩ :: ezodeSequence final clock) = some h ∧
      deliverAll (ChisCartridgeHardwareInit midChainHardware gpioWithActuator)
        (ezodeSequence final clock) = some hf ∧
      h.commits = midChainHardware.commits + 1 ∧ hf.commits = midChainHardware.commits + 1 ∧
      h.rumbleStatus = EZ_RUMBLE_NONE ∧ hf.rumbleStatus = EZ_RUMBLE_NONE ∧
      h.rumbleWaitCommit = hf.rumbleWaitCommit ∧ h.lastOffTS = hf.lastOffTS ∧
      h.calls = hf.calls ∧ h.gpio = hf.gpio ∧
      (final % 0x100 = 2 → h.rumble = 1 ∧ hf.rumble = 1) ∧
      (final % 0x100 ≠ 2 → h.rumble = midChainHardware.rumble ∧ hf.rumble = -1) :=
  deviation_resets_without_poison midChainHardware gpioWithActuator 0x08020000 0x1500 1000 50
    (Or.inr (Or.inl rfl)) (by decide) rfl

/-- C7: `ChisCartridgeHardwareWrite32` is a strict matcher. For every value
of `rumbleStatus` (the nine enumerators and every other value) and every
write, with a non-null `gpio`, the call returns, and the state it returns is
non-idle only if the write is the transition defined for the current state;
every other write leaves `rumbleStatus` idle. -/
theorem write32_strict_matcher (hw : ChisCartridgeHardware) (g : GBACartridgeHardware)
    (address value ts : Nat) (currentTime : Int) (hg : hw.gpio = some g) :
    ∃ h, ChisCartridgeHardwareWrite32 hw address value ts currentTime = some h ∧
      (h.rumbleStatus ≠ EZ_RUMBLE_NONE → definedTransition hw address value) ∧
      (¬ definedTransition hw address value → h.rumbleStatus = EZ_RUMBLE_NONE) := by
  have main : ∃ h, ChisCartridgeHardwareWrite32 hw address value ts currentTime = some h ∧
      (¬ definedTransition hw address value → h.rumbleStatus = EZ_RUMBLE_NONE) := by
    by_cases hc : completesSequence hw address value
    · obtain ⟨wc, he⟩ := write32_of_completes hw address value ts currentTime hc
      obtain ⟨h0, _, hh, _⟩ :=
        commitRumble_total { hw with rumbleWaitCommit := wc } g ts currentTime hg
      exact ⟨{ h0 with rumbleStatus := EZ_RUMBLE_NONE }, by rw [he, hh]; rfl, fun _ => rfl⟩
    · unfold completesSequence at hc
      unfold definedTransition
      rcases rumbleStatus_cases hw.rumbleStatus with h | h | h | h | h | h | h | h | h
      · rw [write32_none _ _ _ _ _ h]
        have h3 : ¬ (address = 0x08001000 ∧ value % 0x100 = 0) := fun hh => hc (Or.inl ⟨h, hh⟩)
        simp only [h3, reduceIte]
        split_ifs with c1 c2
        · exact ⟨_, rfl, fun hn => absurd (Or.inl ⟨h, Or.inl c1⟩) hn⟩
        · exact ⟨_, rfl, fun hn => absurd (Or.inl ⟨h, Or.inr c2⟩) hn⟩
        · exact ⟨_, rfl, fun _ => rfl⟩
      · rw [write32_cmd1 _ _ _ _ _ h]
        split_ifs with c1
        · exact ⟨_, rfl, fun hn => absurd (Or.inr (Or.inl ⟨h, c1⟩)) hn⟩
        · exact ⟨_, rfl, fun _ => rfl⟩
      · rw [write32_cmd2 _ _ _ _ _ h]
        split_ifs with c1
        · exact ⟨_, rfl, fun hn => absurd (Or.inr (Or.inr (Or.inl ⟨h, c1⟩))) hn⟩
        · exact ⟨_, rfl, fun _ => rfl⟩
      · rw [write32_cmd3 _ _ _ _ _ h]
        split_ifs with c1
        · exact ⟨_, rfl, fun hn => absurd (Or.inr (Or.inr (Or.inr (Or.inl ⟨h, c1⟩)))) hn⟩
        · exact ⟨_, rfl, fun _ => rfl⟩
      · rw [write32_cmd4 _ _ _ _ _ h]
        split_ifs with c0 c1 c2 c3
        · exact ⟨_, rfl, fun hn =>
            absurd (Or.inr (Or.inr (Or.inr (Or.inr (Or.inl ⟨h, c0, Or.inl c1⟩))))) hn⟩
        · exact ⟨_, rfl, fun hn =>
            absurd (Or.inr (Or.inr (Or.inr (Or.inr (Or.inl ⟨h, c0, Or.inr (Or.inl c2)⟩))))) hn⟩
        · exact ⟨_, rfl, fun hn =>
            absurd (Or.inr (Or.inr (Or.inr (Or.inr (Or.inl ⟨h, c0, Or.inr (Or.inr c3)⟩))))) hn⟩
        · exact ⟨_, rfl, fun _ => rfl⟩
        · exact ⟨_, rfl, fun _ => rfl⟩
      · rw [write32_data5 _ _ _ _ _ h]
        split_ifs with c1
        · exact ⟨_, rfl, fun hn =>
            absurd (Or.inr (Or.inr (Or.inr (Or.inr (Or.inr ⟨Or.inl h, c1⟩))))) hn⟩
        · exact ⟨_, rfl, fun _ => rfl⟩
      · rw [write32_data5_3in1 _ _ _ _ _ h]
        have h3 : ¬ (address = 0x09FC0000 ∧ value % 0x10000 = 0x1500) :=
          fun hh => hc (Or.inr (Or.inr ⟨h, hh⟩))
        simp only [h3, reduceIte]
        exact ⟨_, rfl, fun _ => rfl⟩
      · rw [write32_end6 _ _ _ _ _ h]
        have h3 : ¬ (address = 0x08001000) := fun hh => hc (Or.inr (Or.inl ⟨h, hh⟩))
        simp only [h3, reduceIte]
        exact ⟨_, rfl, fun _ => rfl⟩
      · rw [write32_default _ _ _ _ _ h]
        exact ⟨_, rfl, fun _ => rfl⟩
  obtain ⟨h, he, hidle⟩ := main
  exact ⟨h, he, fun hne => by_contra fun hnd => hne (hidle hnd), hidle⟩

/-- Witness of C7: the start value on the freshly initialised state. -/
theorem write32_strict_matcher_witness :
    ∃ h, ChisCartridgeHardwareWrite32 freshHardware 0x09FE0000 0xD200 1000 50 = some h ∧
      (h.rumbleStatus ≠ EZ_RUMBLE_NONE → definedTransition freshHardware 0x09FE0000 0xD200) ∧
      (¬ definedTransition freshHardware 0x09FE0000 0xD200 →
        h.rumbleStatus = EZ_RUMBLE_NONE) :=
  write32_strict_matcher freshHardware gpioWithActuator 0x09FE0000 0xD200 1000 50 rfl

/-- C8: in every state, a write that does not complete a recognized
sequence (every write other than: in idle, a value with low byte 0 at
0x08001000; in `EZ_RUMBLE_END_CMD_6`, any write at 0x08001000; in
`EZ_RUMBLE_DATA_5_3IN1`, 0x1500 at 0x09FC0000) returns, makes no actuator call,
does not enter `_commitRumble`, and leaves `rumble` and `lastOffTS` unchanged. -/
theorem write32_without_completion_has_no_effect (hw : ChisCartridgeHardware)
    (address value ts : Nat) (currentTime : Int)
    (hn : ¬ completesSequence hw address value) :
    ∃ h, ChisCartridgeHardwareWrite32 hw address value ts currentTime = some h ∧
      h.calls = hw.calls ∧ h.rumble = hw.rumble ∧ h.lastOffTS = hw.lastOffTS ∧
      h.commits = hw.commits ∧ h.gpio = hw.gpio := by
  obtain ⟨st, wc, he⟩ := write32_of_not_completes hw address value ts currentTime hn
  exact ⟨_, he, rfl, rfl, rfl, rfl, rfl⟩

/-- Witness of C8: the payload 8 written in `EZ_RUMBLE_START_CMD_4` latches an
intent but touches neither the motor flag nor the deadline. -/
theorem write32_without_completion_has_no_effect_witness :
    ∃ h, ChisCartridgeHardwareWrite32
        { pendingOffHardware with rumbleStatus := EZ_RUMBLE_START_CMD_4 }
        0x09E20000 8 1300 50 = some h ∧
      h.calls = pendingOffHardware.calls ∧ h.rumble = pendingOffHardware.rumble ∧
      h.lastOffTS = pendingOffHardware.lastOffTS ∧
      h.commits = pendingOffHardware.commits ∧ h.gpio = pendingOffHardware.gpio :=
  write32_without_completion_has_no_effect
    { pendingOffHardware with rumbleStatus := EZ_RUMBLE_START_CMD_4 } 0x09E20000 8 1300 50
    (by decide)

/-- C9: the three write entry points agree after width masking. A 32-bit
write has the effect of the write of its low 16 bits; `ChisCartridgeHardwareWrite16`
has the effect of `ChisCartridgeHardwareWrite32` on the low 16 bits of the
value, and `ChisCartridgeHardwareWrite8` on its low byte. -/
theorem write_entry_points_agree (hw : ChisCartridgeHardware) (address value ts : Nat)
    (currentTime : Int) :
    ChisCartridgeHardwareWrite32 hw address value ts currentTime =
      ChisCartridgeHardwareWrite32 hw address (value % 2 ^ 16) ts currentTime ∧
    ChisCartridgeHardwareWrite16 hw address value ts currentTime =
      ChisCartridgeHardwareWrite32 hw address (value % 2 ^ 16) ts currentTime ∧
    ChisCartridgeHardwareWrite8 hw address value ts currentTime =
      ChisCartridgeHardwareWrite32 hw address (value % 2 ^ 8) ts currentTime ∧
    ChisCartridgeHardwareWrite16 hw address value ts currentTime =
      ChisCartridgeHardwareWrite32 hw address value ts currentTime := by
  have h16 : ChisCartridgeHardwareWrite32 hw address value ts currentTime =
      ChisCartridgeHardwareWrite32 hw address (value % 2 ^ 16) ts currentTime := by
    unfold ChisCartridgeHardwareWrite32
    have hm : value % 2 ^ 16 % 0x10000 = value % 0x10000 := by omega
    simp only [hm]
  exact ⟨h16, rfl, rfl, h16.symm⟩

/-- C10: in `EZ_RUMBLE_END_CMD_6`, with an actuator attached, every write to
0x08001000 commits and returns the machine to idle: when the low byte is 2 the
commit is "immediate on" (one actuator call with `enable = true`, `rumble = 1`,
`lastOffTS = 0`); for every other value, 0 included, it is "delayed off" (one
actuator call with `enable = true`, `lastOffTS` the `uint64_t` sum of the clock
and 200, `rumble` unchanged). A write to any other address resets to idle and
changes nothing else. -/
theorem end_state_write_commits (hw : ChisCartridgeHardware) (g : GBACartridgeHardware)
    (value ts : Nat) (currentTime : Int)
    (hs : hw.rumbleStatus = EZ_RUMBLE_END_CMD_6) (hg : hw.gpio = some g)
    (hr : g.rumble = true) :
    (value % 0x100 = 2 →
      ∃ h, ChisCartridgeHardwareWrite32 hw 0x08001000 value ts currentTime = some h ∧
        h.calls = hw.calls ++ [(true, wrapInt32 (currentTime - g.lastRumble))] ∧
        h.rumble = 1 ∧ h.lastOffTS = 0 ∧ h.rumbleStatus = EZ_RUMBLE_NONE ∧
        h.commits = hw.commits + 1) ∧
    (value % 0x100 ≠ 2 →
      ∃ h, ChisCartridgeHardwareWrite32 hw 0x08001000 value ts currentTime = some h ∧
        h.calls = hw.calls ++ [(true, wrapInt32 (currentTime - g.lastRumble))] ∧
        h.rumble = hw.rumble ∧ h.lastOffTS = (ts + 200) % 2 ^ 64 ∧
        (ts + 200 < 2 ^ 64 → h.lastOffTS = ts + 200) ∧
        h.rumbleStatus = EZ_RUMBLE_NONE ∧ h.commits = hw.commits + 1) ∧
    (∀ address, address ≠ 0x08001000 →
      ChisCartridgeHardwareWrite32 hw address value ts currentTime =
        some { hw with rumbleStatus := EZ_RUMBLE_NONE }) := by
  refine ⟨fun h2 => ?_, fun h2 => ?_, fun address ha => ?_⟩
  · rw [write32_end6 _ _ _ _ _ hs]
    simp only [h2, reduceIte]
    rw [commitRumble_on _ g _ _ ?_ hr ?_]
    · exact ⟨_, rfl, rfl, rfl, rfl, rfl, rfl⟩
    · exact hg
    · rfl
  · rw [write32_end6 _ _ _ _ _ hs]
    simp only [h2, reduceIte]
    rw [commitRumble_off _ g _ _ ?_ hr ?_]
    · exact ⟨_, rfl, rfl, rfl, rfl, fun hlt => Nat.mod_eq_of_lt hlt, rfl, rfl⟩
    · exact hg
    · rfl
  · rw [write32_end6 _ _ _ _ _ hs]
    simp only [ha, reduceIte]

/-- Witness of C10 on a state waiting in `EZ_RUMBLE_END_CMD_6`, for the
value 0x35. -/
theorem end_state_write_commits_witness :
    (0x35 % 0x100 = 2 →
      ∃ h, ChisCartridgeHardwareWrite32 endHardware 0x08001000 0x35 1000 50 = some h ∧
        h.calls = endHardware.calls ++ [(true, wrapInt32 (50 - gpioWithActuator.lastRumble))] ∧
        h.rumble = 1 ∧ h.lastOffTS = 0 ∧ h.rumbleStatus = EZ_RUMBLE_NONE ∧
        h.commits = endHardware.commits + 1) ∧
    (0x35 % 0x100 ≠ 2 →
      ∃ h, ChisCartridgeHardwareWrite32 endHardware 0x08001000 0x35 1000 50 = some h ∧
        h.calls = endHardware.calls ++ [(true, wrapInt32 (50 - gpioWithActuator.lastRumble))] ∧
        h.rumble = endHardware.rumble ∧ h.lastOffTS = (1000 + 200) % 2 ^ 64 ∧
        (1000 + 200 < 2 ^ 64 → h.lastOffTS = 1000 + 200) ∧
        h.rumbleStatus = EZ_RUMBLE_NONE ∧ h.commits = endHardware.commits + 1) ∧
    (∀ address, address ≠ 0x08001000 →
      ChisCartridgeHardwareWrite32 endHardware address 0x35 1000 50 =
        some { endHardware with rumbleStatus := EZ_RUMBLE_NONE }) :=
  end_state_write_commits endHardware gpioWithActuator 0x35 1000 50 rfl rfl rfl

/-- C11, the code at the failing input: no write delivered in
`EZ_RUMBLE_START_CMD_4` leads to `EZ_RUMBLE_DATA_5_3IN1`. The payloads 7 and 8,
which the header documents for that state, lead to `EZ_RUMBLE_DATA_5` like
0xF1, so that the terminator 0x1500 at 0x09FC0000 advances to
`EZ_RUMBLE_END_CMD_6` without entering `_commitRumble` and without an actuator
call. -/
theorem payload_never_reaches_3in1 :
    (∀ (hw : ChisCartridgeHardware) (address value ts : Nat) (currentTime : Int),
      (ChisCartridgeHardwareWrite32 { hw with rumbleStatus := EZ_RUMBLE_START_CMD_4 }
        address value ts currentTime).map (fun h => h.rumbleStatus) ≠
        some EZ_RUMBLE_DATA_5_3IN1) ∧
    ChisCartridgeHardwareWrite32 payloadHardware 0x09E20000 7 1000 50 =
      some ⟨EZ_RUMBLE_DATA_5, 0, 1, 0, false, some gpioWithActuator, [], 0⟩ ∧
    ChisCartridgeHardwareWrite32 payloadHardware 0x09E20000 8 1000 50 =
      some ⟨EZ_RUMBLE_DATA_5, 0, 0, 0, false, some gpioWithActuator, [], 0⟩ ∧
    deliverAll payloadHardware [⟨0x09E20000, 7, 1000, 50⟩, ⟨0x09FC0000, 0x1500, 1001, 51⟩] =
      some ⟨EZ_RUMBLE_END_CMD_6, 0, 1, 0, false, some gpioWithActuator, [], 0⟩ := by
  refine ⟨fun hw address value ts currentTime => ?_, ?_, ?_, ?_⟩
  · rw [write32_cmd4 _ _ _ _ _ rfl]
    split_ifs <;> simp
  · rw [write32_cmd4 _ _ _ _ _ rfl]
    decide
  · rw [write32_cmd4 _ _ _ _ _ rfl]
    decide
  · rw [deliverAll, deliver, write32_cmd4 _ _ _ _ _ rfl]
    simp only [Nat.reduceMod, Nat.reduceEqDiff, reduceIte, Option.some_bind]
    rw [deliverAll, deliver, write32_data5 _ _ _ _ _ rfl]
    decide

/-- C13: `ChisCartridgeHardwareDeinit` sets `stopThread`, so the loop of
`_rumbleOff` run on the state it leaves starts no pass, whatever clock readings
are on offer; and in that state (`rumble = -1`, `rumbleWaitCommit = -1`, idle,
any `lastOffTS`) a scheduler pass at any clock time returns the state
unchanged: no actuator call and no field changed. -/
theorem deinit_stops_scheduler (hw : ChisCartridgeHardware) (readings : List (Nat × Int))
    (ts : Nat) (currentTime : Int) :
    (ChisCartridgeHardwareDeinit hw).stopThread = true ∧
    (ChisCartridgeHardwareDeinit hw).rumble = -1 ∧
    (ChisCartridgeHardwareDeinit hw).rumbleWaitCommit = -1 ∧
    (ChisCartridgeHardwareDeinit hw).rumbleStatus = EZ_RUMBLE_NONE ∧
    (ChisCartridgeHardwareDeinit hw).lastOffTS = hw.lastOffTS ∧
    _rumbleOff (ChisCartridgeHardwareDeinit hw) readings =
      some (ChisCartridgeHardwareDeinit hw, []) ∧
    _rumbleOff_iteration (ChisCartridgeHardwareDeinit hw) ts currentTime =
      some (ChisCartridgeHardwareDeinit hw) := by
  refine ⟨rfl, rfl, rfl, rfl, rfl, ?_, ?_⟩
  · cases readings with
    | nil => rfl
    | cons r rest =>
      cases r with
      | mk a b => rfl
  · exact rumbleOff_iteration_of_not_due _ ts currentTime
      (fun hd => absurd (show (-1 : Int) = 0 from hd.1) (by decide))

/-- C15: one pass of the loop of `_rumbleOff` that reads the clock value `ts`,
with an actuator attached. When `rumbleWaitCommit = 0`, `rumble = 1`,
`lastOffTS` is set and `lastOffTS < ts`, it calls the actuator once with
`enable = false`, sets `rumble = 0` and clears `lastOffTS`, leaving
`rumbleStatus` and `rumbleWaitCommit` alone; in every other case it returns the
state unchanged. -/
theorem rumbleOff_iteration_fires_exactly_when_due (hw : ChisCartridgeHardware)
    (g : GBACartridgeHardware) (ts : Nat) (currentTime : Int)
    (hg : hw.gpio = some g) (hr : g.rumble = true) :
    ((hw.rumbleWaitCommit = 0 ∧ hw.rumble = 1 ∧ hw.lastOffTS ≠ 0 ∧ hw.lastOffTS < ts) →
      ∃ h, _rumbleOff_iteration hw ts currentTime = some h ∧
        h.calls = hw.calls ++ [(false, wrapInt32 (currentTime - g.lastRumble))] ∧
        h.rumble = 0 ∧ h.lastOffTS = 0 ∧
        h.rumbleStatus = hw.rumbleStatus ∧ h.rumbleWaitCommit = hw.rumbleWaitCommit ∧
        h.commits = hw.commits ∧ h.stopThread = hw.stopThread) ∧
    (¬ (hw.rumbleWaitCommit = 0 ∧ hw.rumble = 1 ∧ hw.lastOffTS ≠ 0 ∧ hw.lastOffTS < ts) →
      _rumbleOff_iteration hw ts currentTime = some hw) := by
  refine ⟨fun hd => ?_, fun hn => rumbleOff_iteration_of_not_due hw ts currentTime hn⟩
  rw [rumbleOff_iteration_of_due hw g ts currentTime hg hr hd]
  exact ⟨_, rfl, rfl, rfl, rfl, rfl, rfl, rfl, rfl⟩

/-- Witness of C15: the pass at 1201 ms on a state whose turn-off is due at
1200 ms. -/
theorem rumbleOff_iteration_fires_exactly_when_due_witness :
    ((dueHardware.rumbleWaitCommit = 0 ∧ dueHardware.rumble = 1 ∧
        dueHardware.lastOffTS ≠ 0 ∧ dueHardware.lastOffTS < 1201) →
      ∃ h, _rumbleOff_iteration dueHardware 1201 60 = some h ∧
        h.calls = dueHardware.calls ++ [(false, wrapInt32 (60 - gpioWithActuator.lastRumble))] ∧
        h.rumble = 0 ∧ h.lastOffTS = 0 ∧
        h.rumbleStatus = dueHardware.rumbleStatus ∧
        h.rumbleWaitCommit = dueHardware.rumbleWaitCommit ∧
        h.commits = dueHardware.commits ∧ h.stopThread = dueHardware.stopThread) ∧
    (¬ (dueHardware.rumbleWaitCommit = 0 ∧ dueHardware.rumble = 1 ∧
        dueHardware.lastOffTS ≠ 0 ∧ dueHardware.lastOffTS < 1201) →
      _rumbleOff_iteration dueHardware 1201 60 = some dueHardware) :=
  rumbleOff_iteration_fires_exactly_when_due dueHardware gpioWithActuator 1201 60 rfl rfl

/-- C12: the state machine and the scheduler behave identically with and
without an actuator. Run from the same record, once with an actuator attached
and once with `hw->gpio->p->rumble` null, every list of writes and scheduler
passes (at any clock times) returns, the two results agree on `rumbleStatus`,
`rumble`, `rumbleWaitCommit` and `lastOffTS`, and the run without an actuator
has made no actuator call. -/
theorem actuator_presence_unobservable (hw : ChisCartridgeHardware)
    (lastRumble lastRumble1 : Int) (es : List Event) :
    ∃ hp ha, run { hw with gpio := some ⟨true, lastRumble⟩ } es = some hp ∧
      run { hw with gpio := some ⟨false, lastRumble1⟩ } es = some ha ∧
      hp.rumbleStatus = ha.rumbleStatus ∧ hp.rumble = ha.rumble ∧
      hp.rumbleWaitCommit = ha.rumbleWaitCommit ∧ hp.lastOffTS = ha.lastOffTS ∧
      ha.calls = hw.calls :=
  run_core es { hw with gpio := some ⟨true, lastRumble⟩ }
    { hw with gpio := some ⟨false, lastRumble1⟩ } ⟨true, lastRumble⟩ ⟨false, lastRumble1⟩
    rfl rfl rfl rfl rfl rfl rfl

/-- C16 as stated fails: with the motor on and a turn-off pending at 1200 ms,
the payload 7 written in `EZ_RUMBLE_START_CMD_4` performs no commit but latches
`rumbleWaitCommit = 1`. The scheduler pass at 1300 ms fires on the state
before the write and does nothing on the state after it; and once the sequence
is abandoned by a deviating write, no pass at any clock time fires. -/
theorem latched_payload_blocks_pending_off :
    ¬ completesSequence latchHardware 0x09E20000 7 ∧
    ChisCartridgeHardwareWrite32 latchHardware 0x09E20000 7 1250 55 =
      some ⟨EZ_RUMBLE_DATA_5, 1, 1, 1200, false, some ⟨true, 0⟩, [(true, 50)], 1⟩ ∧
    (_rumbleOff_iteration latchHardware 1300 60).map observed =
      some ([(true, 50), (false, 60)], 0, 0) ∧
    (_rumbleOff_iteration
        ⟨EZ_RUMBLE_DATA_5, 1, 1, 1200, false, some ⟨true, 0⟩, [(true, 50)], 1⟩ 1300 60).map
        observed = some ([(true, 50)], 1, 1200) ∧
    deliverAll latchHardware [⟨0x09E20000, 7, 1250, 55⟩, ⟨0x08000000, 0, 1260, 56⟩] =
      some ⟨EZ_RUMBLE_NONE, 1, 1, 1200, false, some ⟨true, 0⟩, [(true, 50)], 1⟩ ∧
    ∀ ts currentTime,
      _rumbleOff_iteration
        ⟨EZ_RUMBLE_NONE, 1, 1, 1200, false, some ⟨true, 0⟩, [(true, 50)], 1⟩ ts currentTime =
      some ⟨EZ_RUMBLE_NONE, 1, 1, 1200, false, some ⟨true, 0⟩, [(true, 50)], 1⟩ := by
  refine ⟨by decide, ?_, by decide, by decide, ?_, fun ts currentTime => ?_⟩
  · rw [write32_cmd4 _ _ _ _ _ rfl]
    decide
  · rw [deliverAll, deliver, write32_cmd4 _ _ _ _ _ rfl]
    simp only [Nat.reduceMod, Nat.reduceEqDiff, reduceIte, Option.some_bind]
    rw [deliverAll, deliver, write32_data5 _ _ _ _ _ rfl]
    decide
  · exact rumbleOff_iteration_of_not_due _ ts currentTime
      (fun hd => absurd (show (1 : Int) = 0 from hd.1) (by decide))

/-- C16, amended: a write on which `ChisCartridgeHardwareWrite32` performs no
commit returns; and when it also leaves `rumbleWaitCommit` as it was, a
scheduler pass at any clock time run after the write makes the same actuator
calls and leaves the same `rumble` and `lastOffTS` as a pass run on the state
before the write. -/
theorem write_without_commit_or_latch_keeps_scheduler (hw : ChisCartridgeHardware)
    (address value ts : Nat) (currentTime : Int)
    (hn : ¬ completesSequence hw address value) :
    ∃ h, ChisCartridgeHardwareWrite32 hw address value ts currentTime = some h ∧
      h.commits = hw.commits ∧
      (h.rumbleWaitCommit = hw.rumbleWaitCommit →
        ∀ (ts1 : Nat) (currentTime1 : Int),
          (_rumbleOff_iteration h ts1 currentTime1).map observed =
            (_rumbleOff_iteration hw ts1 currentTime1).map observed) := by
  rw [write32_eq, if_neg hn]
  refine ⟨_, rfl, rfl, fun hkeep ts1 currentTime1 => ?_⟩
  have hk : nextIntent hw.rumbleStatus hw.rumbleWaitCommit address value =
      hw.rumbleWaitCommit := hkeep
  rw [hk]
  have hst := rumbleOff_iteration_status hw (nextStatus hw.rumbleStatus address value)
    ts1 currentTime1
  rw [hst, Option.map_map]
  rfl

/-- Witness of the amended C16: the payload 0xF1 written in
`EZ_RUMBLE_START_CMD_4` with a turn-off pending. -/
theorem write_without_commit_or_latch_keeps_scheduler_witness :
    ∃ h, ChisCartridgeHardwareWrite32 latchHardware 0x09E20000 0xF1 1250 55 = some h ∧
      h.commits = latchHardware.commits ∧
      (h.rumbleWaitCommit = latchHardware.rumbleWaitCommit →
        ∀ (ts1 : Nat) (currentTime1 : Int),
          (_rumbleOff_iteration h ts1 currentTime1).map observed =
            (_rumbleOff_iteration latchHardware ts1 currentTime1).map observed) :=
  write_without_commit_or_latch_keeps_scheduler latchHardware 0x09E20000 0xF1 1250 55
    (by decide)

/-- C17: no double-off, with a non-null `gpio`. Over any run of the loop of
`_rumbleOff` with no write in between, at whatever clock times, at most one
actuator call is added, and it has `enable = false`. A pass that fires leaves
`rumble = 0` and `lastOffTS = 0`, and the state it leaves is returned unchanged
by every later pass. And if the write that commits "immediate on" (low byte 2
at 0x08001000 in `EZ_RUMBLE_END_CMD_6`) runs first, whatever the deadline
was, every later pass returns the state unchanged and does not fire. -/
theorem no_double_off (hw : ChisCartridgeHardware) (g : GBACartridgeHardware)
    (hg : hw.gpio = some g) :
    (∀ readings : List (Nat × Int), ∃ h sleeps added,
      _rumbleOff hw readings = some (h, sleeps) ∧
      h.calls = hw.calls ++ added ∧ added.length ≤ 1 ∧ ∀ c ∈ added, c.1 = false) ∧
    (∀ (ts : Nat) (currentTime : Int),
      (hw.rumbleWaitCommit = 0 ∧ hw.rumble = 1 ∧ hw.lastOffTS ≠ 0 ∧ hw.lastOffTS < ts) →
      ∃ h, _rumbleOff_iteration hw ts currentTime = some h ∧
        h.rumble = 0 ∧ h.lastOffTS = 0 ∧
        ∀ (ts1 : Nat) (currentTime1 : Int), _rumbleOff_iteration h ts1 currentTime1 = some h) ∧
    (∀ (value ts : Nat) (currentTime : Int),
      hw.rumbleStatus = EZ_RUMBLE_END_CMD_6 → value % 0x100 = 2 →
      ∃ h, ChisCartridgeHardwareWrite32 hw 0x08001000 value ts currentTime = some h ∧
        h.lastOffTS = 0 ∧
        ∀ (ts1 : Nat) (currentTime1 : Int), _rumbleOff_iteration h ts1 currentTime1 = some h) := by
  refine ⟨fun readings => rumbleOff_loop_fires_at_most_once readings hw g hg,
    fun ts currentTime hd => ?_, fun value ts currentTime hs hv => ?_⟩
  · rw [rumbleOff_iteration_eq hw g ts currentTime hg, if_pos hd]
    refine ⟨_, rfl, rfl, rfl, fun ts1 currentTime1 => ?_⟩
    exact rumbleOff_iteration_of_not_due _ ts1 currentTime1
      (fun hd1 => absurd hd1.2.2.1 (by simp))
  · rw [write32_end6 _ _ _ _ _ hs]
    simp only [hv, reduceIte]
    have hc := commitRumble_eq { hw with rumbleWaitCommit := 1 } g ts currentTime hg
    rw [hc]
    refine ⟨_, rfl, rfl, fun ts1 currentTime1 => ?_⟩
    exact rumbleOff_iteration_of_not_due _ ts1 currentTime1
      (fun hd1 => absurd hd1.2.2.1 (by simp))

/-- Witness of C17 on a state whose turn-off is due at 1200 ms. -/
theorem no_double_off_witness :
    (∀ readings : List (Nat × Int), ∃ h sleeps added,
      _rumbleOff dueHardware readings = some (h, sleeps) ∧
      h.calls = dueHardware.calls ++ added ∧ added.length ≤ 1 ∧ ∀ c ∈ added, c.1 = false) ∧
    (∀ (ts : Nat) (currentTime : Int),
      (dueHardware.rumbleWaitCommit = 0 ∧ dueHardware.rumble = 1 ∧
        dueHardware.lastOffTS ≠ 0 ∧ dueHardware.lastOffTS < ts) →
      ∃ h, _rumbleOff_iteration dueHardware ts currentTime = some h ∧
        h.rumble = 0 ∧ h.lastOffTS = 0 ∧
        ∀ (ts1 : Nat) (currentTime1 : Int), _rumbleOff_iteration h ts1 currentTime1 = some h) ∧
    (∀ (value ts : Nat) (currentTime : Int),
      dueHardware.rumbleStatus = EZ_RUMBLE_END_CMD_6 → value % 0x100 = 2 →
      ∃ h, ChisCartridgeHardwareWrite32 dueHardware 0x08001000 value ts currentTime = some h ∧
        h.lastOffTS = 0 ∧
        ∀ (ts1 : Nat) (currentTime1 : Int), _rumbleOff_iteration h ts1 currentTime1 = some h) :=
  no_double_off dueHardware gpioWithActuator rfl

/-- C18 as stated fails: with the deadline 4294968 ms ahead of the clock
value read (set and more than 10 ms in the future), the sleep handed to
`usleep` is not 4294968 ms but 704 microseconds, less than 10 ms, because the
product by 1000 is reduced modulo 2^32; and with the deadline 2^32 ms ahead,
the conversion to `unsigned int` leaves a sleep of 0. Also, with a deadline
(1200) that has passed and is still set, the 10 ms sleep of the pass at
5000 ms ends more than 10 ms after the deadline. -/
theorem far_deadline_sleep_wraps :
    farDeadlineHardware.lastOffTS ≠ 0 ∧ farDeadlineHardware.lastOffTS - 1000 > 10 ∧
    farDeadlineHardware.lastOffTS - 1000 = 4294968 ∧
    _rumbleOff_sleep farDeadlineHardware 1000 = 704 ∧
    _rumbleOff_sleep farDeadlineHardware 1000 ≠ 4294968 * 1000 ∧
    _rumbleOff_sleep farDeadlineHardware 1000 < 10 * 1000 ∧
    _rumbleOff_sleep { farDeadlineHardware with lastOffTS := 2 ^ 32 + 1000 } 1000 = 0 ∧
    _rumbleOff_sleep dueHardware 5000 = 10 * 1000 ∧
    5000 * 1000 + _rumbleOff_sleep dueHardware 5000 > (dueHardware.lastOffTS + 10) * 1000 := by
  decide

/-- C18, amended: when the deadline is at most 4294967 ms after the clock
value `ts` read by the pass (in particular whenever it is at most 200 ms
ahead, as `_commitRumble` sets it), the sleep handed to `usleep`, in
microseconds, is the whole distance to the deadline when the deadline is set
and more than 10 ms ahead, and 10 ms otherwise; it is at least 10 ms, and for
a deadline not yet passed it does not extend past the deadline by more than
10 ms. -/
theorem rumbleOff_sleep_bounds (hw : ChisCartridgeHardware) (ts : Nat)
    (hnear : hw.lastOffTS - ts ≤ 4294967) :
    _rumbleOff_sleep hw ts =
      (if hw.lastOffTS ≠ 0 ∧ hw.lastOffTS - ts > 10 then (hw.lastOffTS - ts) * 1000
        else 10 * 1000) ∧
    (hw.lastOffTS ≠ 0 ∧ hw.lastOffTS - ts > 10 →
      ts * 1000 + _rumbleOff_sleep hw ts = hw.lastOffTS * 1000) ∧
    10 * 1000 ≤ _rumbleOff_sleep hw ts ∧
    (ts ≤ hw.lastOffTS → ts * 1000 + _rumbleOff_sleep hw ts ≤ (hw.lastOffTS + 10) * 1000) := by
  have hval : _rumbleOff_sleep hw ts =
      (if hw.lastOffTS ≠ 0 ∧ hw.lastOffTS - ts > 10 then (hw.lastOffTS - ts) * 1000
        else 10 * 1000) := by
    unfold _rumbleOff_sleep _sleep_cross_platform
    by_cases hfar : hw.lastOffTS ≠ 0 ∧ hw.lastOffTS - ts > 10
    · have hcode : hw.lastOffTS ≠ 0 ∧ hw.lastOffTS > ts ∧ hw.lastOffTS - ts > 10 :=
        ⟨hfar.1, by omega, hfar.2⟩
      rw [if_pos hcode, if_pos hfar]
      norm_num
      omega
    · have hcode : ¬ (hw.lastOffTS ≠ 0 ∧ hw.lastOffTS > ts ∧ hw.lastOffTS - ts > 10) :=
        fun hc => hfar ⟨hc.1, hc.2.2⟩
      rw [if_neg hcode, if_neg hfar]
      norm_num
  refine ⟨hval, fun hfar => ?_, ?_, fun hle => ?_⟩
  · rw [hval, if_pos hfar]
    omega
  · rw [hval]
    split_ifs with hfar
    · omega
    · omega
  · rw [hval]
    split_ifs with hfar
    · omega
    · omega

/-- Witness of the amended C18: the pass at 1000 ms with the deadline at
1200 ms sleeps 200000 microseconds. -/
theorem rumbleOff_sleep_bounds_witness :
    _rumbleOff_sleep dueHardware 1000 =
      (if dueHardware.lastOffTS ≠ 0 ∧ dueHardware.lastOffTS - 1000 > 10 then
        (dueHardware.lastOffTS - 1000) * 1000 else 10 * 1000) ∧
    (dueHardware.lastOffTS ≠ 0 ∧ dueHardware.lastOffTS - 1000 > 10 →
      1000 * 1000 + _rumbleOff_sleep dueHardware 1000 = dueHardware.lastOffTS * 1000) ∧
    10 * 1000 ≤ _rumbleOff_sleep dueHardware 1000 ∧
    (1000 ≤ dueHardware.lastOffTS →
      1000 * 1000 + _rumbleOff_sleep dueHardware 1000 ≤ (dueHardware.lastOffTS + 10) * 1000) :=
  rumbleOff_sleep_bounds dueHardware 1000 (by decide)

/-- C19: with an actuator attached, `_setRumble` passes the 32-bit difference
`currentTime - lastRumble` as the elapsed argument and then stores
`currentTime` in `lastRumble`; so over every run of writes and scheduler
passes the calls added were made at timing values `times` taken in order from
the events of the run, and their elapsed arguments are the differences of
consecutive timing values: the first to `lastRumble`, each later one to the
timing value of the call before it. -/
theorem elapsed_is_time_since_previous_call (hw : ChisCartridgeHardware)
    (g : GBACartridgeHardware) (hg : hw.gpio = some g) (hr : g.rumble = true) :
    (∀ (enable : Bool) (currentTime : Int),
      _setRumble hw enable currentTime =
        some { hw with
          calls := hw.calls ++ [(enable, wrapInt32 (currentTime - g.lastRumble))]
          gpio := some { g with lastRumble := currentTime } }) ∧
    (∀ es : List Event, ∃ h times, run hw es = some h ∧
      times.Sublist (es.map eventTime) ∧
      h.calls.map Prod.snd = hw.calls.map Prod.snd ++ elapsedChain g.lastRumble times ∧
      h.calls.length = hw.calls.length + times.length) :=
  ⟨fun enable currentTime => setRumble_attached hw g enable currentTime hg hr,
    fun es => run_calls es hw g hg hr⟩

/-- Witness of C19 on the freshly initialised state. -/
theorem elapsed_is_time_since_previous_call_witness :
    (∀ (enable : Bool) (currentTime : Int),
      _setRumble freshHardware enable currentTime =
        some { freshHardware with
          calls := freshHardware.calls ++
            [(enable, wrapInt32 (currentTime - gpioWithActuator.lastRumble))]
          gpio := some { gpioWithActuator with lastRumble := currentTime } }) ∧
    (∀ es : List Event, ∃ h times, run freshHardware es = some h ∧
      times.Sublist (es.map eventTime) ∧
      h.calls.map Prod.snd =
        freshHardware.calls.map Prod.snd ++ elapsedChain gpioWithActuator.lastRumble times ∧
      h.calls.length = freshHardware.calls.length + times.length) :=
  elapsed_is_time_since_previous_call freshHardware gpioWithActuator rfl rfl

/-- C20: every list of `ChisCartridgeHardwareWrite32` calls delivered from
the state `ChisCartridgeHardwareInit` sets up returns, and in the state
reached `rumbleStatus` is neither `EZ_RUMBLE_DATA_5_3IN1` nor
`EZ_RUMBLE_DATA_7`. A write that commits there enters `_commitRumble` once
with an intent decided by that write alone: when the state is
`EZ_RUMBLE_END_CMD_6` and the low byte is 2 the commit is "immediate on"
(`rumbleWaitCommit = 1`, `lastOffTS = 0`, `rumble = 1`), otherwise it is
"delayed off" (`rumbleWaitCommit = 0`, `lastOffTS` the `uint64_t` sum of the
clock and 200, `rumble` unchanged). In both cases `_setRumble(hw, 1)` runs, so
with an actuator attached exactly one call `(true, elapsed)` is added: the
commit is never a no-op and does not depend on the intent latched before. -/
theorem reachable_commit_decided_by_last_write (hw0 : ChisCartridgeHardware)
    (gpio : GBACartridgeHardware) (ws : List BusWrite) :
    ∃ s k, deliverAll (ChisCartridgeHardwareInit hw0 gpio) ws = some s ∧ s.gpio = some k ∧
      s.rumbleStatus ≠ EZ_RUMBLE_DATA_5_3IN1 ∧ s.rumbleStatus ≠ EZ_RUMBLE_DATA_7 ∧
      ∀ (address value ts : Nat) (currentTime : Int),
        completesSequence s address value →
        ∃ h, ChisCartridgeHardwareWrite32 s address value ts currentTime = some h ∧
          h.commits = s.commits + 1 ∧ h.rumbleStatus = EZ_RUMBLE_NONE ∧
          h.calls = s.calls ++
            (if k.rumble = true then [(true, wrapInt32 (currentTime - k.lastRumble))] else []) ∧
          (s.rumbleStatus = EZ_RUMBLE_END_CMD_6 ∧ value % 0x100 = 2 →
            h.rumbleWaitCommit = 1 ∧ h.lastOffTS = 0 ∧ h.rumble = 1) ∧
          (¬ (s.rumbleStatus = EZ_RUMBLE_END_CMD_6 ∧ value % 0x100 = 2) →
            h.rumbleWaitCommit = 0 ∧ h.lastOffTS = (ts + 200) % 2 ^ 64 ∧
            h.rumble = s.rumble) := by
  obtain ⟨s, k, hs, hk, h6, h8⟩ :=
    deliverAll_status_range ws (ChisCartridgeHardwareInit hw0 gpio) gpio rfl
      (show EZ_RUMBLE_NONE ≠ EZ_RUMBLE_DATA_5_3IN1 by decide)
      (show EZ_RUMBLE_NONE < EZ_RUMBLE_DATA_7 by decide)
  refine ⟨s, k, hs, hk, h6, Nat.ne_of_lt h8, fun address value ts currentTime hcomp => ?_⟩
  have hi := completing_intent s address value h6 hcomp
  have hc := commitRumble_eq
    { s with rumbleWaitCommit := nextIntent s.rumbleStatus s.rumbleWaitCommit address value }
    k ts currentTime hk
  rw [write32_eq s, if_pos hcomp, hc]
  refine ⟨_, rfl, rfl, rfl, ?_, fun hon => ?_, fun hoff => ?_⟩
  · dsimp only
    rw [hi]
    by_cases hon : s.rumbleStatus = EZ_RUMBLE_END_CMD_6 ∧ value % 0x100 = 2
    · simp only [hon, and_self, reduceIte, true_or, and_true]
    · simp only [hon, reduceIte, zero_ne_one, or_true, false_or, and_true]
  · dsimp only
    rw [hi]
    simp only [hon, and_self, reduceIte]
  · dsimp only
    rw [hi]
    simp only [hoff, reduceIte, zero_ne_one]
    exact ⟨trivial, trivial, trivial⟩

/-- C14, the code against the claim: the accesses to `rumble`,
`rumbleWaitCommit` and `lastOffTS` are not all made under `hw->gpioMutex`.
Every pass of `_rumbleOff`, in every state and at every clock time, reads
`lastOffTS` after `MutexUnlock`; every call of `_commitRumble` reads
`rumbleWaitCommit` before `MutexLock`; `ChisCartridgeHardwareWrite32` writes
`rumbleWaitCommit` without the lock (the marker 0x08 in idle, for one); and
`ChisCartridgeHardwareDeinit` writes `rumbleWaitCommit` and `rumble` without
the lock. -/
theorem shared_fields_accessed_outside_lock :
    (∀ (hw : ChisCartridgeHardware) (ts : Nat),
      underLock false (_rumbleOff_iteration_accesses hw ts) = false) ∧
    (∀ hw : ChisCartridgeHardware, underLock false (_commitRumble_accesses hw) = false) ∧
    _rumbleOff_iteration_accesses freshHardware 1000 =
      [Access.lock, Access.read SharedField.rumbleWaitCommit, Access.unlock,
        Access.read SharedField.lastOffTS] ∧
    ChisCartridgeHardwareWrite32_accesses freshHardware 0x09E20000 8 =
      [Access.write SharedField.rumbleWaitCommit] ∧
    underLock false (ChisCartridgeHardwareWrite32_accesses freshHardware 0x09E20000 8) = false ∧
    underLock false ChisCartridgeHardwareDeinit_accesses = false := by
  refine ⟨fun hw ts => ?_, fun hw => ?_, by decide, by decide, by decide, by decide⟩
  · unfold _rumbleOff_iteration_accesses _rumbleOff_sleep_accesses
    split_ifs <;> exact underLock_unlock_read _ _ _ _
  · unfold _commitRumble_accesses
    split_ifs <;> rfl

end Chis
